import Mathlib

/-!
Verification of the unixmd quantum-chemistry adapter layer.

Shallow embedding of the three source files of this repository:
`src/bo/dftbplus/ssr.py` (class `SSR`), `src/bo/qchem/qchem.py` (class `QChem`)
and `src/qm/turbomole/turbomole.py` (class `Turbomole`), with proofs about
input rendering, subprocess handling, log extraction and environment mutation.

Modelling conventions:
* Python exceptions are modelled by `Except PyError`.
* Numeric values read back from logs are rationals; configuration values that
  the code only ever interpolates into text (tolerances, shifts, axis lengths)
  are kept as their rendered decimal strings.
* `re.findall` results are inputs of the extraction model (structure `Log`):
  each field holds the list of matches of one fixed pattern of `extract_BO`.
* `os.environ` is an association list; setting a variable prepends, lookup
  takes the first hit, so later writes shadow earlier ones.
-/

/-- A 3-vector of rationals: one force / coupling row per atom. -/
abbrev Vec3 := ℚ × ℚ × ℚ

def v3zero : Vec3 := (0, 0, 0)

def v3neg (v : Vec3) : Vec3 := (-v.1, -v.2.1, -v.2.2)

/-- Elementwise negation of a per-atom block, `- np.copy(arr)` in the source. -/
def negBlock (b : List Vec3) : List Vec3 := b.map v3neg

/-- The block `np.zeros((n, 3))`, one zero 3-vector per atom (the source's
`nsp` is the three spatial components). -/
def zeroBlock (n : Nat) : List Vec3 := List.replicate n v3zero

/-- The Python exception kinds raised by the embedded code. -/
inductive PyError where
  | valueError (msg : String)
  | typeError (msg : String)
  | nameError (msg : String)
  | indexError
deriving Repr, DecidableEq, Inhabited

/-- One electronic state of the caller-owned molecule object: its energy and
its per-atom force block. -/
structure BOState where
  energy : ℚ
  force : List Vec3
deriving Repr, DecidableEq, Inhabited

/-- The caller-owned molecule snapshot, restricted to the fields the three
adapters read or write: atom count `nat`, requested states `nst`, charge as its
rendered text, atom types (cached on the adapter by the `DFTBplus` parent and
read via `self.atom_type`), the `l_nacme` flag mutated by `SSR.__init__`, the
per-state result records and the pairwise NAC array of shape
`nst × nst × nat × 3`. -/
structure Molecule where
  nat : Nat
  nst : Nat
  charge : String
  atom_type : List String
  l_nacme : Bool
  states : List BOState
  nac : List (List (List Vec3))
deriving Repr, DecidableEq, Inhabited

/-- The process environment, `os.environ`. -/
abbrev Env := List (String × String)

def setEnv (env : Env) (k v : String) : Env := (k, v) :: env

def getEnv (env : Env) (k : String) : Option String :=
  match env.find? (fun p => p.1 == k) with
  | some p => some p.2
  | none => none

/-- Model of `os.path.join` for the path shapes used by the adapters (written over the
character lists so that every case is computable by the kernel): an absolute
second component wins, otherwise a separator is inserted unless one is already
present. -/
def joinPath (a b : String) : String :=
  if b.data.take 1 = ['/'] then b
  else if a = "" then b
  else if a.data.getLast? = some '/' then a ++ b
  else a ++ "/" ++ b

/-- The program version `19.1` accepted by the SSR adapter, as the reduced
rational `191/10` (the decimal literal notation for `ℚ` is deliberately not
unfolded by the library, so the explicit fraction keeps every definition
computable by the kernel). -/
def rat19_1 : ℚ := mkRat 191 10

/-- The program version `5.2` accepted by the QChem base class, as `26/5`. -/
def rat5_2 : ℚ := mkRat 26 5

/-- The keyword arguments of `SSR.__init__`, with the source's default values.
Fields compared by the code keep their Python type (`Bool`, `Nat`, `ℚ`); fields
that are only interpolated into the input deck are their rendered strings.
`calc_coupling` is set on the adapter by the `BO_calculator` parent before
`get_input` runs and is read by the NAC-option selection. -/
structure SSRConf where
  scc : Bool := true
  scc_tol : String := "1e-06"
  max_scc_iter : String := "1000"
  sdftb : Bool := true
  lcdftb : Bool := true
  lc_method : String := "NB"
  ocdftb : Bool := false
  ssr22 : Bool := true
  use_ssr_state : Nat := 1
  state_l : String := "0"
  guess : Nat := 1
  shift : String := "0.3"
  tuning : String := "1.0"
  grad_level : String := "1"
  grad_tol : String := "1e-08"
  mem_level : String := "2"
  sk_path : String := "./"
  periodic : Bool := false
  a_axis : String := "0.0"
  b_axis : String := "0.0"
  c_axis : String := "0.0"
  qm_path : String := "./"
  script_path : String := "./"
  nthreads : Nat := 1
  version : ℚ := rat19_1
  calc_coupling : Bool := false
deriving Repr, DecidableEq, Inhabited

/-- The element tables imported from `bo/dftbplus/dftbpar.py` (that file is not
part of this excerpt); each maps an atom-type symbol to the rendered constant
text spliced into the deck. -/
structure DFTBPar where
  spin_w : String → String
  onsite_uu : String → String
  onsite_ud : String → String
  max_l : String → String

/-- The adapter object produced by `SSR.__init__`: the stored configuration and
the derived `re_calc` flag. -/
structure SSR where
  conf : SSRConf
  re_calc : Bool
deriving Repr, DecidableEq, Inhabited

/-- Constructor `SSR.__init__`. The body contains no `raise`; the `Except`
result type makes it comparable with the other adapters' constructors. It
mutates the caller's molecule: `l_nacme` is set from `use_ssr_state`, and
`re_calc` is derived from `nst` and `use_ssr_state`. -/
def SSR.init (molecule : Molecule) (c : SSRConf) : Except PyError (SSR × Molecule) :=
  .ok ({ conf := c,
         re_calc := if molecule.nst > 1 && c.use_ssr_state == 0 then true else false },
       if c.use_ssr_state == 1 then { molecule with l_nacme := false }
       else { molecule with l_nacme := true })

/- Rendering of `dftb_in.hsd`.  Each definition below is one of the
`textwrap.dedent` / `textwrap.indent` template pieces of `SSR.get_input`, after
carrying out the dedent/indent arithmetic on the literal text. -/

def inputGeom : String :=
  "Geometry = GenFormat\x7b\n  <<< \x27geometry.gen\x27\n\x7d\n"

def inputHamScc (scc_tol max_scc_iter : String) : String :=
  "  SCC = Yes\n  SCCTolerance = " ++ scc_tol
  ++ "\n  MaxSCCIterations = " ++ max_scc_iter ++ "\n"

def inputHamSpin (atom_type : List String) (spin_w : String → String) : String :=
  "  SpinConstants = \x7b\n    ShellResolvedSpin = Yes\n"
  ++ String.intercalate "\n"
      (atom_type.map (fun t => "    " ++ t ++ " = \x7b " ++ spin_w t ++ " \x7d"))
  ++ "\n  \x7d\n"

def inputHamLc (screening : String) : String :=
  "  RangeSeparated = LC\x7b\n    Screening = " ++ screening ++ "\x7b\x7d\n  \x7d\n"

def inputHamOc (atom_type : List String) (ouu oud : String → String) : String :=
  "  OnsiteCorrection = \x7b\n"
  ++ String.intercalate "\n"
      (atom_type.map (fun t => "    " ++ t ++ "uu = \x7b " ++ ouu t ++ " \x7d")) ++ "\n"
  ++ String.intercalate "\n"
      (atom_type.map (fun t => "    " ++ t ++ "ud = \x7b " ++ oud t ++ " \x7d")) ++ "\n"
  ++ "  \x7d\n"

def inputHamPeriodic : String :=
  "  KPointsAndWeights = \x7b\n    0.0 0.0 0.0 1.0\n  \x7d\n"

def inputHamBasic (charge : String) (atom_type : List String)
    (maxl : String → String) (sk_path : String) : String :=
  "  Charge = " ++ charge ++ "\n  MaxAngularMomentum = \x7b\n"
  ++ String.intercalate "\n"
      (atom_type.map (fun t => "    " ++ t ++ " = \x27" ++ maxl t ++ "\x27")) ++ "\n"
  ++ "  \x7d\n  SlaterKosterFiles = Type2FileNames\x7b\n    Prefix = \x27" ++ sk_path
  ++ "\x27\n    Separator = \x27-\x27\n    Suffix = \x27.skf\x27\n    LowerCaseTypeName = No\n  \x7d\n\x7d\n"

def inputAnalysisBlock : String :=
  "Analysis = \x7b\n  CalculateForces = Yes\n  WriteBandOut = Yes\n  WriteEigenvectors = Yes\n  MullikenAnalysis = Yes\n\x7d\n"

def inputOptionsBlock : String :=
  "Options = \x7b\n  WriteDetailedXml = Yes\n  WriteDetailedOut = Yes\n  TimingVerbosity = -1\n\x7d\n"

/-- Translation of the LC screening keyword; any value other than `MM` / `NB`
raises the `ValueError` of line 170 of `ssr.py`. -/
def lcScreeningName (lc_method : String) : Except PyError String :=
  if lc_method = "MM" then .ok "MatrixBased"
  else if lc_method = "NB" then .ok "NeighbourBased"
  else .error (.valueError "Other LC screening Not Compatible with SSR")

/-- The text of the Hamiltonian block given the (possibly unused) screening
keyword, concatenated in source order: SCC options with the spin / LC / onsite
sub-blocks nested under `scc`, then the periodic block, then the closing basic
part. -/
def hamText (c : SSRConf) (p : DFTBPar) (mol : Molecule) (screening : String) : String :=
  "Hamiltonian = DFTB\x7b\n"
  ++ (if c.scc then
        inputHamScc c.scc_tol c.max_scc_iter
        ++ (if c.sdftb then inputHamSpin mol.atom_type p.spin_w else "")
        ++ (if c.lcdftb then inputHamLc screening else "")
        ++ (if c.ocdftb then inputHamOc mol.atom_type p.onsite_uu p.onsite_ud else "")
      else "")
  ++ (if c.periodic then inputHamPeriodic else "")
  ++ inputHamBasic mol.charge mol.atom_type p.max_l c.sk_path

/-- The Hamiltonian block of `dftb_in.hsd`.  The screening keyword is
translated (and can raise) exactly when `scc` and `lcdftb` are both set, as in
the nesting of the source conditionals. -/
def inputHamBlock (c : SSRConf) (p : DFTBPar) (mol : Molecule) :
    Except PyError String :=
  if c.scc ∧ c.lcdftb then
    lcScreeningName c.lc_method >>= fun screening => .ok (hamText c p mol screening)
  else .ok (hamText c p mol "")

/-- Energy functional options of lines 237 to 245 of `ssr.py`: the
`(EnergyFunctional, EnergyLevel)` pair selected from `molecule.nst`. -/
def energyOptions (nst : Nat) : Nat × Nat :=
  if nst == 1 then (1, 1)
  else if nst == 2 then (2, 1)
  else (2, 2)

/-- NAC option of lines 247 to 258 of `ssr.py`. -/
def nacOption (nst use_ssr_state : Nat) (calc_coupling : Bool) : String :=
  if nst == 1 || use_ssr_state == 0 then "No"
  else if calc_coupling then "Yes" else "No"

/- The REKS block, split at the two lines that the properties inspect so that
the full text is their concatenation. -/

def reksHead : String := "REKS = SSR22\x7b\n  "

def reksEnergyLines (ef el : Nat) : String :=
  "EnergyFunctional = " ++ toString ef ++ "\n  EnergyLevel = " ++ toString el ++ "\n"

def reksMid (use_s target : Nat) (state_l : String) (guess : Nat)
    (shift grad_level grad_tol rd : String) : String :=
  "  useSSRstate = " ++ toString use_s
  ++ "\n  TargetState = " ++ toString target
  ++ "\n  TargetStateL = " ++ state_l
  ++ "\n  InitialGuess = " ++ toString guess
  ++ "\n  FONmaxIter = 50\n  shift = " ++ shift
  ++ "\n  GradientLevel = " ++ grad_level
  ++ "\n  CGmaxIter = 100\n  GradientTolerance = " ++ grad_tol
  ++ "\n  RelaxedDensity = " ++ rd
  ++ "\n  "

def reksNacLine (nac : String) : String :=
  "NonAdiabaticCoupling = " ++ nac ++ "\n"

def reksTail (mem_level : String) : String :=
  "  PrintLevel = 1\n  MemoryLevel = " ++ mem_level ++ "\n\x7d\n"

def inputReksBlock (ef el use_s target : Nat) (state_l : String) (guess : Nat)
    (shift grad_level grad_tol rd nac mem_level : String) : String :=
  reksHead ++ reksEnergyLines ef el
  ++ reksMid use_s target state_l guess shift grad_level grad_tol rd
  ++ reksNacLine nac ++ reksTail mem_level

def inputParserBlock (pver : Nat) : String :=
  "ParserOptions = \x7b\n  ParserVersion = " ++ toString pver ++ "\n\x7d\n"

/-- Rendering function `SSR.get_input`, producing the text of `dftb_in.hsd` and the `self.nac`
flag it stores for `extract_BO`.  The `xyz2gen` subprocess and the periodic
rewrite of `geometry.gen` write a different file and do not influence this
text.  The raises appear in source order: LC screening (inside the Hamiltonian
block), active space (`ssr22`), external guess (`guess == 2`), the
`bo_list[0]` index of the `TargetState` interpolation, then the program
version; `RelaxedDensity` is the constant `rd = "No"` and the parser version
is `7` for the only accepted program version `19.1`. -/
def get_input (c : SSRConf) (p : DFTBPar) (mol : Molecule) (bo_list : List Nat) :
    Except PyError (String × String) :=
  inputHamBlock c p mol >>= fun ham =>
    if ¬ c.ssr22 then .error (.valueError "Other active spaces Not Implemented")
    else if c.guess = 2 then .error (.valueError "read external guess not implemented")
    else
      match bo_list[0]? with
      | none => .error .indexError
      | some t =>
        if c.version = rat19_1 then
          .ok (inputGeom ++ ham ++ inputAnalysisBlock ++ inputOptionsBlock
            ++ inputReksBlock (energyOptions mol.nst).1 (energyOptions mol.nst).2
                c.use_ssr_state (t + 1) c.state_l c.guess c.shift c.grad_level
                c.grad_tol "No" (nacOption mol.nst c.use_ssr_state c.calc_coupling)
                c.mem_level
            ++ inputParserBlock 7,
            nacOption mol.nst c.use_ssr_state c.calc_coupling)
        else .error (.valueError "Other Versions Not Implemented")

/-- Runner `SSR.run_QM`.  Inputs beyond the configuration: the environment, the MD
step, the BO state list, the exit status the `dftb+` subprocess will produce,
and whether the `QMlog` archive directory exists.  The record collects the
shell commands issued and the log copies performed. -/
structure RunRecord where
  env : Env
  commands : List String
  copies : List (String × String)
deriving Repr, DecidableEq, Inhabited

def SSR.run_QM (c : SSRConf) (env : Env) (base_dir : String) (istep : Nat)
    (bo_list : List Nat) (exit_status : Int) (qmlog_exists : Bool) :
    Except PyError RunRecord :=
  let qm_command := joinPath c.qm_path "dftb+"
  let env := setEnv env "OMP_NUM_THREADS" (toString c.nthreads)
  let command := qm_command ++ " > log"
  -- `os.system(command)` returns the exit status and the source discards it,
  -- so `exit_status` does not alter control flow.
  let _ := exit_status
  if qmlog_exists then
    match bo_list[0]? with
    | none => .error .indexError
    | some t =>
      .ok { env := env, commands := [command],
            copies := [("log",
              joinPath (joinPath base_dir "QMlog")
                ("log." ++ toString (istep + 1) ++ "." ++ toString t))] }
  else
    .ok { env := env, commands := [command], copies := [] }

/-- The `re.findall` results of the fixed patterns of `SSR.extract_BO` on one
log text.  `spinEnergies`: matches of the `Spin`-anchored per-state energy
pattern, one group list per match; `ssrEnergies`: matches of the
`SSR state`-anchored pattern; `ssrForces k`: matches of the
`' k st state (SSR)'` force pattern for the 1-based state number `k`, each a
per-atom block; `saForces k`: matches of the `' k state (..)'` pattern;
`nacBlocks`: matches of the `non-adiabatic coupling` pattern.  An absent
pattern is an empty match list. -/
structure Log where
  spinEnergies : List (List ℚ)
  ssrEnergies : List ℚ
  ssrForces : Nat → List (List Vec3)
  saForces : Nat → List (List Vec3)
  nacBlocks : List (List Vec3)

/-- Assignment `molecule.states[i].energy = e`; out-of-range `i` is the `IndexError`
Python raises on the list access. -/
def setStateEnergy (m : Molecule) (i : Nat) (e : ℚ) : Except PyError Molecule :=
  match m.states[i]? with
  | none => .error .indexError
  | some s => .ok { m with states := m.states.set i { s with energy := e } }

/-- Assignment `molecule.states[i].force = b`. -/
def setStateForce (m : Molecule) (i : Nat) (b : List Vec3) : Except PyError Molecule :=
  match m.states[i]? with
  | none => .error .indexError
  | some s => .ok { m with states := m.states.set i { s with force := b } }

/-- One turn of the single-state energy loop: `energy[ist]` on the match list,
then the assignment.  A one-group `findall` match is its single captured
string, hence the head of the group list. -/
def energyStepSingle (log : Log) (m : Molecule) (ist : Nat) : Except PyError Molecule :=
  match log.spinEnergies[ist]? with
  | none => .error .indexError
  | some groups => setStateEnergy m ist (groups.headD 0)

/-- One turn of the SSR-state energy loop. -/
def energyStepSSR (log : Log) (m : Molecule) (ist : Nat) : Except PyError Molecule :=
  match log.ssrEnergies[ist]? with
  | none => .error .indexError
  | some e => setStateEnergy m ist e

/-- One turn of the SA-REKS energy loop, indexing inside the first match's
group tuple (`energy[0]` then `energy[ist]`). -/
def energyStepSA (groups : List ℚ) (m : Molecule) (ist : Nat) : Except PyError Molecule :=
  match groups[ist]? with
  | none => .error .indexError
  | some e => setStateEnergy m ist e

/-- The reset `for states in molecule.states: states.energy = 0.` of lines
352 to 353. -/
def energyReset (m : Molecule) : Molecule :=
  { m with states := m.states.map (fun s => { s with energy := 0 }) }

/-- The energy section of `extract_BO` (lines 350 to 372): skipped under
`calc_force_only`, otherwise every state's energy is reset to `0.` and then the
variant-specific pattern is read, one value per state. -/
def extractEnergies (c : SSRConf) (log : Log) (mol0 : Molecule)
    (calc_force_only : Bool) : Except PyError Molecule :=
  if calc_force_only then .ok mol0 else
  if mol0.nst == 1 then
    (List.range mol0.nst).foldlM (energyStepSingle log) (energyReset mol0)
  else if c.use_ssr_state == 1 then
    (List.range mol0.nst).foldlM (energyStepSSR log) (energyReset mol0)
  else
    match log.spinEnergies[0]? with
    | none => .error .indexError
    | some groups => (List.range mol0.nst).foldlM (energyStepSA groups) (energyReset mol0)

/-- One turn of the all-states force loop of the `nac == "Yes"` branch:
`force[0]` of the per-state pattern, negated, into `states[ist].force`. -/
def forceStepSSR (log : Log) (m : Molecule) (ist : Nat) : Except PyError Molecule :=
  match (log.ssrForces (ist + 1))[0]? with
  | none => .error .indexError
  | some f => setStateForce m ist (negBlock f)

/-- The reset `for states in molecule.states: states.force = np.zeros(..)` of
lines 375 to 377, which runs only when `calc_force_only` is false. -/
def forceReset (m : Molecule) (calc_force_only : Bool) : Molecule :=
  if calc_force_only then m
  else { m with states := m.states.map (fun s => { s with force := zeroBlock m.nat }) }

/-- The force section of `extract_BO` (lines 374 to 396): the zero reset runs
only when `calc_force_only` is false, the extraction always runs; with
`nac == "Yes"` every state's force is read, otherwise only `bo_list[0]`'s. -/
def extractForces (nacFlag : String) (log : Log) (mol0 : Molecule)
    (bo_list : List Nat) (calc_force_only : Bool) : Except PyError Molecule :=
  if nacFlag == "Yes" then
    (List.range (forceReset mol0 calc_force_only).nst).foldlM (forceStepSSR log)
      (forceReset mol0 calc_force_only)
  else
    match bo_list[0]? with
    | none => .error .indexError
    | some t =>
      match (log.saForces (t + 1))[0]? with
      | none => .error .indexError
      | some f => setStateForce (forceReset mol0 calc_force_only) t (negBlock f)

/-- Read of `molecule.nac[i, j]` as an option. -/
def nacGet (m : Molecule) (i j : Nat) : Option (List Vec3) :=
  match m.nac[i]? with
  | none => none
  | some row => row[j]?

/-- Read of `molecule.nac[i, j]` with Python's `IndexError` on out-of-range indices. -/
def getNacEntry (m : Molecule) (i j : Nat) : Except PyError (List Vec3) :=
  match m.nac[i]? with
  | none => .error .indexError
  | some row =>
    match row[j]? with
    | none => .error .indexError
    | some b => .ok b

/-- Assignment `molecule.nac[i, j] = b` with `IndexError` on out-of-range indices. -/
def setNacEntry (m : Molecule) (i j : Nat) (b : List Vec3) : Except PyError Molecule :=
  match m.nac[i]? with
  | none => .error .indexError
  | some row =>
    if j < row.length then .ok { m with nac := m.nac.set i (row.set j b) }
    else .error .indexError

/-- The body of the double loop of lines 400 to 414 of `ssr.py`, acting on the
molecule `acc.1` together with the running match counter `kst = acc.2`; the
pair `p` is `(ist, jst)`. -/
def nacPairStep (log : Log) (natoms : Nat) (acc : Molecule × Nat) (p : Nat × Nat) :
    Except PyError (Molecule × Nat) :=
  if p.1 = p.2 then do
    let m2 ← setNacEntry acc.1 p.1 p.2 (zeroBlock natoms)
    pure (m2, acc.2)
  else if p.1 < p.2 then
    match log.nacBlocks[acc.2]? with
    | none => .error .indexError
    | some b => do
      let m2 ← setNacEntry acc.1 p.1 p.2 b
      pure (m2, acc.2 + 1)
  else do
    let prev ← getNacEntry acc.1 p.2 p.1
    let m2 ← setNacEntry acc.1 p.1 p.2 (negBlock prev)
    pure (m2, acc.2)

/-- The row-major pair order of the nested `for ist` / `for jst` loops. -/
def pairList (nst : Nat) : List (Nat × Nat) :=
  (List.range nst).flatMap (fun ist => (List.range nst).map (fun jst => (ist, jst)))

/-- How many `ist < jst` pairs the loops visit, hence how many coupling blocks
the log must contain. -/
def nacPairCount (nst : Nat) : Nat :=
  ((pairList nst).filter (fun p => decide (p.1 < p.2))).length

/-- The NAC section of `extract_BO` (lines 398 to 414). -/
def extractNacs (nacFlag : String) (log : Log) (mol : Molecule)
    (calc_force_only : Bool) : Except PyError Molecule :=
  if (!calc_force_only) && nacFlag == "Yes" then do
    let r ← (pairList mol.nst).foldlM (nacPairStep log mol.nat) (mol, 0)
    pure r.1
  else .ok mol

/-- Extractor `SSR.extract_BO`: the three sections in source order.  `nacFlag` is the
`self.nac` string stored by `get_input`. -/
def extract_BO (c : SSRConf) (nacFlag : String) (log : Log) (mol : Molecule)
    (bo_list : List Nat) (calc_force_only : Bool) : Except PyError Molecule := do
  let m1 ← extractEnergies c log mol calc_force_only
  let m2 ← extractForces nacFlag log m1 bo_list calc_force_only
  extractNacs nacFlag log m2 calc_force_only

/-- A Python value that is either a string or a number; `Turbomole.__init__`
dispatches on `isinstance(self.version, str)`. -/
inductive PyVal where
  | pstr (s : String)
  | pnum (q : ℚ)
deriving Repr, DecidableEq

/-- The constructor arguments of `Turbomole.__init__`. -/
structure TurboArgs where
  functional : String
  basis_set : String
  memory : String
  qm_path : String
  nthreads : Nat
  version : PyVal
deriving Repr, DecidableEq

structure TurboState where
  functional : String
  basis_set : String
  memory : String
  qm_path : String
  qm_scripts_path : String
  qm_bin_path : String
  nthreads : Nat
  version : PyVal
deriving Repr, DecidableEq

/-- Constructor `Turbomole.__init__`.  `TURBODIR` is exported unconditionally before the
version check; with `nthreads ≠ 1` the SMP variables are exported too; a
non-string version raises `TypeError`, a string other than `"6.4"` raises
`ValueError`.  The environment component is returned in every case because the
exports persist even when the constructor raises. -/
def Turbomole.init (a : TurboArgs) (env : Env) : Env × Except PyError TurboState :=
  let env1 := setEnv env "TURBODIR" a.qm_path
  let qm_scripts_path := joinPath a.qm_path "scripts/"
  let pair :=
    if a.nthreads == 1 then (env1, joinPath a.qm_path "bin/em64t-unknown-linux-gnu/")
    else (setEnv (setEnv env1 "PARA_ARCH" "SMP") "PARNODES" (toString a.nthreads),
          joinPath a.qm_path "bin/em64t-unknown-linux-gnu_smp/")
  let env2 := pair.1
  let qm_bin_path := pair.2
  match a.version with
  | .pstr s =>
    if s ≠ "6.4" then (env2, .error (.valueError "Other versions not implemented!"))
    else (env2, .ok { functional := a.functional, basis_set := a.basis_set,
                      memory := a.memory, qm_path := a.qm_path,
                      qm_scripts_path := qm_scripts_path, qm_bin_path := qm_bin_path,
                      nthreads := a.nthreads, version := a.version })
  | .pnum _ => (env2, .error (.typeError "Type of version must be string!"))

/-- The constructor arguments of `QChem.__init__`. -/
structure QChemArgs where
  basis_set : String
  memory : String
  qm_path : String
  nthreads : Nat
  version : ℚ
deriving Repr, DecidableEq

structure QChemState where
  basis_set : String
  memory : String
  qm_path : String
  nthreads : Nat
  version : ℚ
deriving Repr, DecidableEq

/-- Constructor `QChem.__init__`.  When `version ≠ 5.2` the source executes
`raise ValueError(f"( ... {call_name()} ) ...")`, but `call_name` is not
imported in `qchem.py`, so evaluating the message fails first and the exception
that escapes the constructor is a `NameError`, not the intended `ValueError`. -/
def QChem.init (a : QChemArgs) : Except PyError QChemState :=
  if a.version ≠ rat5_2 then
    .error (.nameError "name \x27call_name\x27 is not defined")
  else
    .ok { basis_set := a.basis_set, memory := a.memory, qm_path := a.qm_path,
          nthreads := a.nthreads, version := a.version }

/- Concrete inputs used to instantiate the theorems below on closed data. -/

def parsW : DFTBPar :=
  { spin_w := fun _ => "0.4", onsite_uu := fun _ => "0.0",
    onsite_ud := fun _ => "0.0", max_l := fun _ => "p" }

def confW : SSRConf := {}

def confBad : SSRConf := { ssr22 := false }

def molW1 : Molecule :=
  { nat := 1, nst := 1, charge := "0", atom_type := ["C"], l_nacme := false,
    states := [{ energy := 5, force := [(7, 7, 7)] }],
    nac := [[[(9, 9, 9)]]] }

def molW2 : Molecule :=
  { nat := 1, nst := 2, charge := "0", atom_type := ["C"], l_nacme := false,
    states := [{ energy := 5, force := [(7, 7, 7)] },
      { energy := 6, force := [(8, 8, 8)] }],
    nac := [[[(9, 9, 9)], [(9, 9, 9)]], [[(9, 9, 9)], [(9, 9, 9)]]] }

def logW1 : Log :=
  { spinEnergies := [[-2]], ssrEnergies := [],
    ssrForces := fun _ => [], saForces := fun _ => [[(1, 2, 3)]],
    nacBlocks := [] }

def logW2 : Log :=
  { spinEnergies := [], ssrEnergies := [-2, -1],
    ssrForces := fun _ => [[(1, 2, 3)]], saForces := fun _ => [],
    nacBlocks := [[(4, 5, 6)]] }

def logEmpty : Log :=
  { spinEnergies := [], ssrEnergies := [], ssrForces := fun _ => [],
    saForces := fun _ => [], nacBlocks := [] }

def turboW : TurboArgs :=
  { functional := "b-lyp", basis_set := "SV(P)", memory := "500",
    qm_path := "/opt/turbomole", nthreads := 4, version := .pstr "6.4" }

def turboBadT : TurboArgs :=
  { functional := "b-lyp", basis_set := "SV(P)", memory := "500",
    qm_path := "/opt/turbomole", nthreads := 2, version := .pnum 6 }

def turboBadS : TurboArgs :=
  { functional := "b-lyp", basis_set := "SV(P)", memory := "500",
    qm_path := "/opt/turbomole", nthreads := 2, version := .pstr "6.3" }

def qchemBad : QChemArgs :=
  { basis_set := "6-31G", memory := "500", qm_path := "/opt/qchem",
    nthreads := 1, version := 5 }

instance {ε α : Type} [DecidableEq ε] [DecidableEq α] : DecidableEq (Except ε α) :=
  fun x y =>
  match x, y with
  | .ok a, .ok b =>
    if h : a = b then isTrue (by rw [h]) else isFalse (fun hc => h (Except.ok.inj hc))
  | .error e, .error f =>
    if h : e = f then isTrue (by rw [h]) else isFalse (fun hc => h (Except.error.inj hc))
  | .ok _, .error _ => isFalse (fun hc => Except.noConfusion hc)
  | .error _, .ok _ => isFalse (fun hc => Except.noConfusion hc)

/-- Selector for the value of a successful `Except`, used to name the concrete
outputs appearing in witnesses. -/
def okValue {α : Type} [Inhabited α] (e : Except PyError α) : α :=
  match e with
  | .ok a => a
  | .error _ => default

def dW1 : String × String := okValue (get_input confW parsW molW1 [0])

def mW1 : Molecule := okValue (extract_BO confW "No" logW1 molW1 [0] false)

def mW2 : Molecule := okValue (extract_BO confW "Yes" logW2 molW2 [0] false)

def initBad : SSR × Molecule := okValue (SSR.init molW1 confBad)

def rW : RunRecord := okValue (SSR.run_QM confW [] "/base" 0 [0] 0 false)

/- Helper lemmas: inversion of `Except` binds and invariants of monadic folds. -/

theorem except_bind_ok {α β : Type} (x : Except PyError α) (f : α → Except PyError β)
    (b : β) (h : x >>= f = .ok b) : ∃ a, x = .ok a ∧ f a = .ok b := by
  cases x with
  | ok a => exact ⟨a, rfl, h⟩
  | error e => exact Except.noConfusion (show Except.error e = Except.ok b from h)

theorem except_fold_obs {σ α β : Type} (f : σ → α → Except PyError σ) (obs : σ → β) :
    ∀ (l : List α) (s s₂ : σ),
      (∀ t a t₂, a ∈ l → f t a = .ok t₂ → obs t₂ = obs t) →
      List.foldlM f s l = .ok s₂ → obs s₂ = obs s := by
  intro l
  induction l with
  | nil =>
    intro s s₂ _ h
    have h₂ : Except.ok s = Except.ok s₂ := h
    cases h₂
    rfl
  | cons a l ih =>
    intro s s₂ hstep h
    rw [List.foldlM_cons] at h
    obtain ⟨s₁, hfa, hrest⟩ := except_bind_ok _ _ _ h
    have h₁ := ih s₁ s₂ (fun t b t₂ hb => hstep t b t₂ (List.mem_cons_of_mem _ hb)) hrest
    rw [h₁, hstep s a s₁ (List.mem_cons_self a l) hfa]

theorem except_fold_split {σ α : Type} (f : σ → α → Except PyError σ)
    (l₁ l₂ : List α) (s s₂ : σ) (h : List.foldlM f s (l₁ ++ l₂) = .ok s₂) :
    ∃ s₁, List.foldlM f s l₁ = .ok s₁ ∧ List.foldlM f s₁ l₂ = .ok s₂ := by
  rw [List.foldlM_append] at h
  exact except_bind_ok _ _ _ h

theorem except_fold_mem_ok {σ α : Type} (f : σ → α → Except PyError σ) :
    ∀ (l : List α) (s s₂ : σ), List.foldlM f s l = .ok s₂ →
      ∀ a ∈ l, ∃ t t₂, f t a = .ok t₂ := by
  intro l
  induction l with
  | nil =>
    intro s s₂ _ a ha
    exact absurd ha (List.not_mem_nil a)
  | cons b l ih =>
    intro s s₂ h a ha
    rw [List.foldlM_cons] at h
    obtain ⟨s₁, hfb, hrest⟩ := except_bind_ok _ _ _ h
    rcases List.mem_cons.mp ha with rfl | ha₂
    · exact ⟨s, s₁, hfb⟩
    · exact ih s₁ s₂ hrest a ha₂

theorem set_self_of_get {α : Type} (l : List α) (i : Nat) (a : α)
    (h : l[i]? = some a) : l.set i a = l := by
  obtain ⟨hlt, hv⟩ := List.getElem?_eq_some.mp h
  apply List.ext_getElem?
  intro n
  rw [List.getElem?_set]
  by_cases hni : i = n
  · subst hni
    simp [hlt, ← hv, List.getElem?_eq_getElem hlt]
  · simp [hni]

theorem range_split (n k : Nat) (hk : k < n) :
    List.range n = List.range k ++ k :: List.range' (k + 1) (n - (k + 1)) := by
  have h1 : k :: List.range' (k + 1) (n - (k + 1)) = List.range' k ((n - (k + 1)) + 1) := by
    rw [List.range'_succ]
  rw [List.range_eq_range', List.range_eq_range', h1]
  have h2 := List.range'_append 0 k ((n - (k + 1)) + 1) 1
  simp only [Nat.zero_add, Nat.one_mul] at h2
  rw [h2]
  congr 1
  omega

theorem flatMap_range_split {β : Type} (f : Nat → List β) (n k : Nat) (hk : k < n) :
    (List.range n).flatMap f
      = (List.range k).flatMap f ++ (f k ++ (List.range' (k + 1) (n - (k + 1))).flatMap f) := by
  rw [range_split n k hk, List.flatMap_append, List.flatMap_cons]

theorem map_range_split {β : Type} (f : Nat → β) (n k : Nat) (hk : k < n) :
    (List.range n).map f
      = (List.range k).map f ++ (f k :: (List.range' (k + 1) (n - (k + 1))).map f) := by
  rw [range_split n k hk, List.map_append, List.map_cons]

/-- Decomposition of the loop order at a chosen pair `(i, j)`: everything
visited earlier is lexicographically below it, everything later above it. -/
theorem pairList_split (nst i j : Nat) (hi : i < nst) (hj : j < nst) :
    ∃ P₁ P₂, pairList nst = P₁ ++ (i, j) :: P₂ ∧
      (∀ p ∈ P₁, p.1 < i ∨ (p.1 = i ∧ p.2 < j)) ∧
      (∀ p ∈ P₂, i < p.1 ∨ (p.1 = i ∧ j < p.2)) := by
  refine ⟨(List.range i).flatMap (fun a => (List.range nst).map (fun b => (a, b)))
      ++ (List.range j).map (fun b => (i, b)),
    (List.range' (j + 1) (nst - (j + 1))).map (fun b => (i, b))
      ++ (List.range' (i + 1) (nst - (i + 1))).flatMap
          (fun a => (List.range nst).map (fun b => (a, b))), ?_, ?_, ?_⟩
  · rw [pairList]
    simp only [flatMap_range_split (fun a => (List.range nst).map (fun b => (a, b))) nst i hi]
    rw [map_range_split (fun b => (i, b)) nst j hj]
    simp [List.append_assoc]
  · intro p hp
    rcases List.mem_append.mp hp with h | h
    · rcases List.mem_flatMap.mp h with ⟨a, ha, hb⟩
      rcases List.mem_map.mp hb with ⟨b, _, rfl⟩
      exact Or.inl (List.mem_range.mp ha)
    · rcases List.mem_map.mp h with ⟨b, hb, rfl⟩
      exact Or.inr ⟨rfl, List.mem_range.mp hb⟩
  · intro p hp
    rcases List.mem_append.mp hp with h | h
    · rcases List.mem_map.mp h with ⟨b, hb, rfl⟩
      have hm := List.mem_range'_1.mp hb
      exact Or.inr ⟨rfl, by omega⟩
    · rcases List.mem_flatMap.mp h with ⟨a, ha, hb⟩
      rcases List.mem_map.mp hb with ⟨b, _, rfl⟩
      have hm := List.mem_range'_1.mp ha
      exact Or.inl (by omega)

theorem getNacEntry_eq (m : Molecule) (i j : Nat) (v : List Vec3) :
    getNacEntry m i j = .ok v ↔ nacGet m i j = some v := by
  unfold getNacEntry nacGet
  cases h1 : m.nac[i]? with
  | none => simp
  | some row =>
    cases h2 : row[j]? with
    | none => simp [h2]
    | some b => simp [h2]

theorem setNacEntry_ok (m : Molecule) (i j : Nat) (b : List Vec3) (m₂ : Molecule)
    (h : setNacEntry m i j b = .ok m₂) :
    m₂.nat = m.nat ∧ m₂.nst = m.nst ∧ m₂.states = m.states ∧
    nacGet m₂ i j = some b ∧
    (∀ a c, ¬(a = i ∧ c = j) → nacGet m₂ a c = nacGet m a c) := by
  unfold setNacEntry at h
  cases h1 : m.nac[i]? with
  | none => simp only [h1] at h; exact Except.noConfusion h
  | some row =>
    simp only [h1] at h
    by_cases hj : j < row.length
    · rw [if_pos hj] at h
      injection h with h
      subst h
      have hi : i < m.nac.length := (List.getElem?_eq_some.mp h1).1
      refine ⟨rfl, rfl, rfl, ?_, ?_⟩
      · unfold nacGet
        simp only [List.getElem?_set_self hi]
        exact List.getElem?_set_self hj
      · intro a c hne
        unfold nacGet
        by_cases hai : a = i
        · subst hai
          have hcj : c ≠ j := fun hcj => hne ⟨rfl, hcj⟩
          simp only [List.getElem?_set_self hi, h1]
          exact List.getElem?_set_ne (fun hh => hcj hh.symm)
        · simp only [List.getElem?_set_ne (fun hh => hai hh.symm)]
    · rw [if_neg hj] at h
      exact Except.noConfusion h

theorem nacPairStep_frame (log : Log) (natoms : Nat) (acc acc₂ : Molecule × Nat)
    (p : Nat × Nat) (h : nacPairStep log natoms acc p = .ok acc₂) :
    acc₂.1.nat = acc.1.nat ∧ acc₂.1.nst = acc.1.nst ∧ acc₂.1.states = acc.1.states ∧
    (∀ a c, ¬(a = p.1 ∧ c = p.2) → nacGet acc₂.1 a c = nacGet acc.1 a c) := by
  unfold nacPairStep at h
  by_cases h1 : p.1 = p.2
  · rw [if_pos h1] at h
    obtain ⟨m₂, hset, hp⟩ := except_bind_ok _ _ _ h
    have hp2 : Except.ok (m₂, acc.2) = Except.ok acc₂ := hp
    injection hp2 with hp2
    subst hp2
    obtain ⟨ha, hb, hc, _, hframe⟩ := setNacEntry_ok _ _ _ _ _ hset
    exact ⟨ha, hb, hc, hframe⟩
  · rw [if_neg h1] at h
    by_cases h2 : p.1 < p.2
    · rw [if_pos h2] at h
      cases hb : log.nacBlocks[acc.2]? with
      | none => simp only [hb] at h; exact Except.noConfusion h
      | some b =>
        simp only [hb] at h
        obtain ⟨m₂, hset, hp⟩ := except_bind_ok _ _ _ h
        have hp2 : Except.ok (m₂, acc.2 + 1) = Except.ok acc₂ := hp
        injection hp2 with hp2
        subst hp2
        obtain ⟨ha, hb2, hc, _, hframe⟩ := setNacEntry_ok _ _ _ _ _ hset
        exact ⟨ha, hb2, hc, hframe⟩
    · rw [if_neg h2] at h
      obtain ⟨prev, hget, hrest⟩ := except_bind_ok _ _ _ h
      obtain ⟨m₂, hset, hp⟩ := except_bind_ok _ _ _ hrest
      have hp2 : Except.ok (m₂, acc.2) = Except.ok acc₂ := hp
      injection hp2 with hp2
      subst hp2
      obtain ⟨ha, hb2, hc, _, hframe⟩ := setNacEntry_ok _ _ _ _ _ hset
      exact ⟨ha, hb2, hc, hframe⟩

theorem nacPairStep_val (log : Log) (natoms : Nat) (acc acc₂ : Molecule × Nat)
    (p : Nat × Nat) (h : nacPairStep log natoms acc p = .ok acc₂) :
    (p.1 = p.2 → nacGet acc₂.1 p.1 p.2 = some (zeroBlock natoms)) ∧
    (p.2 < p.1 → ∃ v, nacGet acc.1 p.2 p.1 = some v ∧
      nacGet acc₂.1 p.1 p.2 = some (negBlock v)) ∧
    (p.1 < p.2 → acc.2 < log.nacBlocks.length ∧ acc₂.2 = acc.2 + 1) ∧
    (¬ p.1 < p.2 → acc₂.2 = acc.2) := by
  unfold nacPairStep at h
  by_cases h1 : p.1 = p.2
  · rw [if_pos h1] at h
    obtain ⟨m₂, hset, hp⟩ := except_bind_ok _ _ _ h
    have hp2 : Except.ok (m₂, acc.2) = Except.ok acc₂ := hp
    injection hp2 with hp2
    subst hp2
    obtain ⟨_, _, _, hval, _⟩ := setNacEntry_ok _ _ _ _ _ hset
    exact ⟨fun _ => hval, fun hlt => absurd h1 (by omega),
      fun hlt => absurd h1 (by omega), fun _ => rfl⟩
  · rw [if_neg h1] at h
    by_cases h2 : p.1 < p.2
    · rw [if_pos h2] at h
      cases hb : log.nacBlocks[acc.2]? with
      | none => simp only [hb] at h; exact Except.noConfusion h
      | some b =>
        simp only [hb] at h
        obtain ⟨m₂, hset, hp⟩ := except_bind_ok _ _ _ h
        have hp2 : Except.ok (m₂, acc.2 + 1) = Except.ok acc₂ := hp
        injection hp2 with hp2
        subst hp2
        exact ⟨fun he => absurd he h1, fun hlt => absurd hlt (by omega),
          fun _ => ⟨(List.getElem?_eq_some.mp hb).1, rfl⟩, fun hn => absurd h2 hn⟩
    · rw [if_neg h2] at h
      obtain ⟨prev, hget, hrest⟩ := except_bind_ok _ _ _ h
      obtain ⟨m₂, hset, hp⟩ := except_bind_ok _ _ _ hrest
      have hp2 : Except.ok (m₂, acc.2) = Except.ok acc₂ := hp
      injection hp2 with hp2
      subst hp2
      obtain ⟨_, _, _, hval, _⟩ := setNacEntry_ok _ _ _ _ _ hset
      exact ⟨fun he => absurd he h1,
        fun _ => ⟨prev, (getNacEntry_eq _ _ _ _).mp hget, hval⟩,
        fun hlt => absurd hlt h2, fun _ => rfl⟩

theorem nacFold_stable (log : Log) (natoms : Nat) (P : List (Nat × Nat))
    (s s₂ : Molecule × Nat) (a c : Nat) (hnotin : (a, c) ∉ P)
    (h : List.foldlM (nacPairStep log natoms) s P = .ok s₂) :
    nacGet s₂.1 a c = nacGet s.1 a c := by
  apply except_fold_obs (nacPairStep log natoms) (fun t => nacGet t.1 a c) P s s₂ ?_ h
  intro t p t₂ hp hstep
  have hne : ¬(a = p.1 ∧ c = p.2) := by
    rintro ⟨rfl, rfl⟩
    exact hnotin (by rwa [Prod.mk.eta])
  exact (nacPairStep_frame log natoms t t₂ p hstep).2.2.2 a c hne

theorem nacFold_dims (log : Log) (natoms : Nat) (P : List (Nat × Nat))
    (s s₂ : Molecule × Nat) (h : List.foldlM (nacPairStep log natoms) s P = .ok s₂) :
    s₂.1.nat = s.1.nat ∧ s₂.1.nst = s.1.nst ∧ s₂.1.states = s.1.states := by
  have := except_fold_obs (nacPairStep log natoms)
    (fun t => (t.1.nat, t.1.nst, t.1.states)) P s s₂ ?_ h
  · exact ⟨congrArg Prod.fst this, congrArg (fun q => q.2.1) this,
      congrArg (fun q => q.2.2) this⟩
  · intro t p t₂ _ hstep
    obtain ⟨h1, h2, h3, _⟩ := nacPairStep_frame log natoms t t₂ p hstep
    simp [h1, h2, h3]

/-- After a successful run of the NAC double loop the diagonal is zero and
every below-diagonal entry is the negation of its transpose. -/
theorem nacFold_final (log : Log) (natoms nst : Nat) (m0 mf : Molecule) (kf : Nat)
    (hfold : List.foldlM (nacPairStep log natoms) (m0, 0) (pairList nst) = .ok (mf, kf)) :
    (∀ i, i < nst → nacGet mf i i = some (zeroBlock natoms)) ∧
    (∀ i j, j < i → i < nst → ∃ v, nacGet mf j i = some v ∧
      nacGet mf i j = some (negBlock v)) := by
  constructor
  · intro i hi
    obtain ⟨P₁, P₂, hsplit, hP₁, hP₂⟩ := pairList_split nst i i hi hi
    rw [hsplit] at hfold
    obtain ⟨s₁, hfold₁, hrest⟩ := except_fold_split _ _ _ _ _ hfold
    rw [List.foldlM_cons] at hrest
    obtain ⟨s₂, hstep, hfold₂⟩ := except_bind_ok _ _ _ hrest
    have hval := (nacPairStep_val log natoms s₁ s₂ (i, i) hstep).1 rfl
    have hni : (i, i) ∉ P₂ := by
      intro hmem
      rcases hP₂ _ hmem with hlt | ⟨_, hlt⟩ <;> exact absurd hlt (lt_irrefl i)
    have hstable := nacFold_stable log natoms P₂ s₂ (mf, kf) i i hni hfold₂
    rw [hstable]
    exact hval
  · intro i j hj hi
    obtain ⟨P₁, P₂, hsplit, hP₁, hP₂⟩ := pairList_split nst i j hi (lt_trans hj hi)
    rw [hsplit] at hfold
    obtain ⟨s₁, hfold₁, hrest⟩ := except_fold_split _ _ _ _ _ hfold
    rw [List.foldlM_cons] at hrest
    obtain ⟨s₂, hstep, hfold₂⟩ := except_bind_ok _ _ _ hrest
    obtain ⟨v, hv₁, hv₂⟩ := (nacPairStep_val log natoms s₁ s₂ (i, j) hstep).2.1 hj
    have hij : (i, j) ∉ P₂ := by
      intro hmem
      have hc := hP₂ _ hmem
      rw [show ((i, j) : Nat × Nat).1 = i from rfl,
        show ((i, j) : Nat × Nat).2 = j from rfl] at hc
      rcases hc with hlt | ⟨_, hlt⟩ <;> omega
    have hji : (j, i) ∉ P₂ := by
      intro hmem
      have hc := hP₂ _ hmem
      rw [show ((j, i) : Nat × Nat).1 = j from rfl,
        show ((j, i) : Nat × Nat).2 = i from rfl] at hc
      rcases hc with hlt | ⟨heq, _⟩ <;> omega
    refine ⟨v, ?_, ?_⟩
    · rw [nacFold_stable log natoms P₂ s₂ (mf, kf) j i hji hfold₂]
      have hframe := (nacPairStep_frame log natoms s₁ s₂ (i, j) hstep).2.2.2 j i
        (fun hc => absurd hc.1 (Nat.ne_of_lt hj))
      rw [hframe]
      exact hv₁
    · rw [nacFold_stable log natoms P₂ s₂ (mf, kf) i j hij hfold₂]
      exact hv₂

/-- A successful run of the NAC double loop needs at least as many coupling
blocks in the log as there are below-diagonal pairs. -/
theorem nacFold_count (log : Log) (natoms : Nat) :
    ∀ (P : List (Nat × Nat)) (s s₂ : Molecule × Nat),
      List.foldlM (nacPairStep log natoms) s P = .ok s₂ →
      (P.filter (fun p => decide (p.1 < p.2))).length = 0 ∨
        s.2 + (P.filter (fun p => decide (p.1 < p.2))).length ≤ log.nacBlocks.length := by
  intro P
  induction P with
  | nil => intro s s₂ _; exact Or.inl rfl
  | cons p P ih =>
    intro s s₂ h
    rw [List.foldlM_cons] at h
    obtain ⟨s₁, hstep, hrest⟩ := except_bind_ok _ _ _ h
    have hval := nacPairStep_val log natoms s s₁ p hstep
    by_cases hlt : p.1 < p.2
    · obtain ⟨hk, hk₁⟩ := hval.2.2.1 hlt
      have ihr := ih s₁ s₂ hrest
      simp only [List.filter_cons, hlt, decide_eq_true_eq, if_true, List.length_cons,
        decide_eq_true (p := p.1 < p.2)]
      rcases ihr with h0 | hle
      · right; omega
      · right; omega
    · have hk₁ := hval.2.2.2 hlt
      have ihr := ih s₁ s₂ hrest
      have hd : decide (p.1 < p.2) = false := decide_eq_false hlt
      simp only [List.filter_cons, hd, Bool.false_eq_true, if_false]
      rcases ihr with h0 | hle
      · exact Or.inl h0
      · right; omega

/-- The scalar observations of a molecule that the energy-assignment loop
leaves untouched. -/
def molObs (m : Molecule) :
    Nat × Nat × List (List (List Vec3)) × Nat × List (List Vec3) :=
  (m.nat, m.nst, m.nac, m.states.length, m.states.map BOState.force)

theorem molObs_nat {m₁ m : Molecule} (h : molObs m₁ = molObs m) : m₁.nat = m.nat :=
  congrArg (fun q => q.1) h

theorem molObs_nst {m₁ m : Molecule} (h : molObs m₁ = molObs m) : m₁.nst = m.nst :=
  congrArg (fun q => q.2.1) h

theorem molObs_nac {m₁ m : Molecule} (h : molObs m₁ = molObs m) : m₁.nac = m.nac :=
  congrArg (fun q => q.2.2.1) h

theorem molObs_len {m₁ m : Molecule} (h : molObs m₁ = molObs m) :
    m₁.states.length = m.states.length :=
  congrArg (fun q => q.2.2.2.1) h

theorem molObs_forces {m₁ m : Molecule} (h : molObs m₁ = molObs m) :
    m₁.states.map BOState.force = m.states.map BOState.force :=
  congrArg (fun q => q.2.2.2.2) h

theorem setStateEnergy_obs (m : Molecule) (i : Nat) (e : ℚ) (m₂ : Molecule)
    (h : setStateEnergy m i e = .ok m₂) : molObs m₂ = molObs m := by
  unfold setStateEnergy at h
  cases h1 : m.states[i]? with
  | none => simp only [h1] at h; exact Except.noConfusion h
  | some s =>
    simp only [h1] at h
    injection h with h
    subst h
    unfold molObs
    refine congrArg _ (congrArg _ (congrArg _ ?_))
    refine Prod.ext (List.length_set ..) ?_
    show (m.states.set i { s with energy := e }).map BOState.force
      = m.states.map BOState.force
    rw [List.map_set]
    exact set_self_of_get _ _ _ (by rw [List.getElem?_map, h1]; rfl)

theorem setStateForce_ok (m : Molecule) (i : Nat) (b : List Vec3) (m₂ : Molecule)
    (h : setStateForce m i b = .ok m₂) :
    m₂.nat = m.nat ∧ m₂.nst = m.nst ∧ m₂.nac = m.nac ∧
    m₂.states.length = m.states.length ∧
    (∀ r, r ≠ i → m₂.states[r]? = m.states[r]?) ∧
    (∃ s, m.states[i]? = some s ∧ m₂.states[i]? = some { s with force := b }) := by
  unfold setStateForce at h
  cases h1 : m.states[i]? with
  | none => simp only [h1] at h; exact Except.noConfusion h
  | some s =>
    simp only [h1] at h
    injection h with h
    subst h
    have hi : i < m.states.length := (List.getElem?_eq_some.mp h1).1
    refine ⟨rfl, rfl, rfl, List.length_set .., ?_, s, rfl, ?_⟩
    · intro r hr
      exact List.getElem?_set_ne (fun hh => hr hh.symm)
    · exact List.getElem?_set_self hi

theorem energyStepSingle_obs (log : Log) (m : Molecule) (i : Nat) (m₂ : Molecule)
    (h : energyStepSingle log m i = .ok m₂) : molObs m₂ = molObs m := by
  unfold energyStepSingle at h
  cases h1 : log.spinEnergies[i]? with
  | none => simp only [h1] at h; exact Except.noConfusion h
  | some g => simp only [h1] at h; exact setStateEnergy_obs _ _ _ _ h

theorem energyStepSSR_obs (log : Log) (m : Molecule) (i : Nat) (m₂ : Molecule)
    (h : energyStepSSR log m i = .ok m₂) : molObs m₂ = molObs m := by
  unfold energyStepSSR at h
  cases h1 : log.ssrEnergies[i]? with
  | none => simp only [h1] at h; exact Except.noConfusion h
  | some g => simp only [h1] at h; exact setStateEnergy_obs _ _ _ _ h

theorem energyStepSA_obs (groups : List ℚ) (m : Molecule) (i : Nat) (m₂ : Molecule)
    (h : energyStepSA groups m i = .ok m₂) : molObs m₂ = molObs m := by
  unfold energyStepSA at h
  cases h1 : groups[i]? with
  | none => simp only [h1] at h; exact Except.noConfusion h
  | some g => simp only [h1] at h; exact setStateEnergy_obs _ _ _ _ h

theorem energyReset_obs (m : Molecule) : molObs (energyReset m) = molObs m := by
  unfold molObs energyReset
  refine congrArg _ (congrArg _ (congrArg _ ?_))
  refine Prod.ext (List.length_map ..) ?_
  show (m.states.map (fun s => { s with energy := 0 })).map BOState.force
    = m.states.map BOState.force
  rw [List.map_map]
  rfl

/-- The energy section leaves atom count, state count, NAC array, state-list
length and every force block unchanged. -/
theorem extractEnergies_obs (c : SSRConf) (log : Log) (mol : Molecule) (cfo : Bool)
    (m₁ : Molecule) (h : extractEnergies c log mol cfo = .ok m₁) :
    molObs m₁ = molObs mol := by
  unfold extractEnergies at h
  split at h
  · injection h with h; subst h; rfl
  · split at h
    · have := except_fold_obs _ molObs _ _ _
        (fun t a t₂ _ hst => energyStepSingle_obs log t a t₂ hst) h
      rw [this, energyReset_obs]
    · split at h
      · have := except_fold_obs _ molObs _ _ _
          (fun t a t₂ _ hst => energyStepSSR_obs log t a t₂ hst) h
        rw [this, energyReset_obs]
      · split at h
        · exact Except.noConfusion h
        · have := except_fold_obs _ molObs _ _ _
            (fun t a t₂ _ hst => energyStepSA_obs _ t a t₂ hst) h
          rw [this, energyReset_obs]

theorem extractNacs_skip (nacFlag : String) (log : Log) (m : Molecule) (cfo : Bool)
    (hc : ((!cfo) && (nacFlag == "Yes")) = false) :
    extractNacs nacFlag log m cfo = .ok m := by
  unfold extractNacs
  rw [hc]
  rfl

theorem extractNacs_yes (log : Log) (m m₂ : Molecule)
    (h : extractNacs "Yes" log m false = .ok m₂) :
    ∃ kf, List.foldlM (nacPairStep log m.nat) (m, 0) (pairList m.nst) = .ok (m₂, kf) := by
  unfold extractNacs at h
  obtain ⟨r, hfold, hp⟩ := except_bind_ok _ _ _ h
  have hp2 : Except.ok r.1 = Except.ok m₂ := hp
  injection hp2 with hp2
  refine ⟨r.2, ?_⟩
  have hr : (m₂, r.2) = r := by rw [← hp2]
  rw [hr]
  exact hfold

theorem extract_BO_parts (c : SSRConf) (nacFlag : String) (log : Log) (mol : Molecule)
    (bo : List Nat) (cfo : Bool) (m₂ : Molecule)
    (h : extract_BO c nacFlag log mol bo cfo = .ok m₂) :
    ∃ m₁ mf, extractEnergies c log mol cfo = .ok m₁ ∧
      extractForces nacFlag log m₁ bo cfo = .ok mf ∧
      extractNacs nacFlag log mf cfo = .ok m₂ := by
  unfold extract_BO at h
  obtain ⟨m₁, h₁, hrest⟩ := except_bind_ok _ _ _ h
  obtain ⟨mf, h₂, h₃⟩ := except_bind_ok _ _ _ hrest
  exact ⟨m₁, mf, h₁, h₂, h₃⟩

theorem list_singleton_of {α : Type} (l : List α) (x : α)
    (h1 : l.length = 1) (h2 : l[0]? = some x) : l = [x] := by
  cases l with
  | nil => exact Option.noConfusion h2
  | cons a l' =>
    cases l' with
    | nil =>
      simp only [List.getElem?_cons_zero] at h2
      injection h2 with h2
      rw [h2]
    | cons b l'' => simp at h1

/-- Full characterisation of the force section on the `nac == "No"` path of a
fresh (not force-only) step: every state's force is reset to zero, then only
state `bo_list[0]` receives the negated gradient of the first matching block;
energies are untouched. -/
theorem extractForces_no_spec (nacFlag : String) (log : Log) (mol0 : Molecule)
    (bo : List Nat) (t : Nat) (m₂ : Molecule)
    (hflag : (nacFlag == "Yes") = false)
    (hbo : bo[0]? = some t)
    (h : extractForces nacFlag log mol0 bo false = .ok m₂) :
    ∃ g rest, log.saForces (t + 1) = g :: rest ∧
      m₂.nat = mol0.nat ∧ m₂.nst = mol0.nst ∧ m₂.nac = mol0.nac ∧
      m₂.states.length = mol0.states.length ∧
      (∀ s, s ≠ t → m₂.states[s]?
        = (mol0.states[s]?).map (fun s1 => { s1 with force := zeroBlock mol0.nat })) ∧
      (∃ s0, mol0.states[t]? = some s0 ∧
        m₂.states[t]? = some { energy := s0.energy, force := negBlock g }) := by
  unfold extractForces at h
  rw [hflag] at h
  simp only [Bool.false_eq_true, if_false, hbo] at h
  cases hsa : log.saForces (t + 1) with
  | nil =>
    simp only [hsa, List.getElem?_nil] at h
    exact Except.noConfusion h
  | cons g rest =>
    simp only [hsa, List.getElem?_cons_zero] at h
    obtain ⟨hnat, hnst, hnac, hlen, hothers, sR, hsrc, hset⟩ := setStateForce_ok _ _ _ _ h
    have hsrc2 : Option.map (fun s1 => { s1 with force := zeroBlock mol0.nat }) mol0.states[t]?
        = some sR := by
      rw [← List.getElem?_map]
      exact hsrc
    cases ho : mol0.states[t]? with
    | none => rw [ho] at hsrc2; exact Option.noConfusion hsrc2
    | some s0 =>
      rw [ho] at hsrc2
      simp only [Option.map_some'] at hsrc2
      injection hsrc2 with hsr
      refine ⟨g, rest, rfl, hnat, hnst, hnac, ?_, ?_, s0, rfl, ?_⟩
      · rw [hlen]
        exact List.length_map ..
      · intro s hs
        rw [hothers s hs, ← List.getElem?_map]
        rfl
      · rw [hset, ← hsr]

theorem negBlock_negBlock (b : List Vec3) : negBlock (negBlock b) = b := by
  unfold negBlock
  rw [List.map_map]
  have hid : v3neg ∘ v3neg = id := by
    funext v
    simp [v3neg, Function.comp]
  rw [hid, List.map_id]

theorem negBlock_zeroBlock (n : Nat) : negBlock (zeroBlock n) = zeroBlock n := by
  unfold negBlock zeroBlock
  rw [List.map_replicate]
  have hz : v3neg v3zero = v3zero := by simp [v3neg, v3zero]
  rw [hz]

/-- The energy section on a single-state molecule: the unique state receives
the head of the first `Spin`-pattern match. -/
theorem extractEnergies_single_spec (c : SSRConf) (log : Log) (mol : Molecule)
    (s0 : BOState) (m₁ : Molecule) (hnst : mol.nst = 1) (hstates : mol.states = [s0])
    (h : extractEnergies c log mol false = .ok m₁) :
    ∃ em restE, log.spinEnergies = em :: restE ∧
      m₁ = { mol with states := [{ energy := em.headD 0, force := s0.force }] } := by
  unfold extractEnergies at h
  rw [if_neg (by simp)] at h
  rw [hnst] at h
  have hcond : ((1 : Nat) == 1) = true := rfl
  rw [if_pos hcond] at h
  rw [show List.range 1 = [0] from rfl, List.foldlM_cons] at h
  obtain ⟨mA, hstep, hpure⟩ := except_bind_ok _ _ _ h
  have hpure2 : Except.ok mA = Except.ok m₁ := hpure
  injection hpure2 with hpure2
  subst hpure2
  unfold energyStepSingle at hstep
  cases hsp : log.spinEnergies[0]? with
  | none => simp only [hsp] at hstep; exact Except.noConfusion hstep
  | some em =>
    simp only [hsp] at hstep
    unfold setStateEnergy at hstep
    have hres : (energyReset mol).states = [{ s0 with energy := 0 }] := by
      unfold energyReset
      rw [hstates]
      rfl
    rw [hres] at hstep
    simp only [List.getElem?_cons_zero] at hstep
    injection hstep with hstep
    cases hspl : log.spinEnergies with
    | nil => rw [hspl] at hsp; exact Option.noConfusion hsp
    | cons a l =>
      rw [hspl] at hsp
      simp only [List.getElem?_cons_zero] at hsp
      injection hsp with hsp
      refine ⟨a, l, rfl, ?_⟩
      rw [← hstep, hsp]
      unfold energyReset
      rw [hstates]
      rfl

/-- C2: after every successful `SSR.extract_BO` with NAC extraction enabled
(`self.nac == "Yes"` and `calc_force_only` false), the NAC array is zero on
the diagonal and antisymmetric: for all state indices `i, j` below the state
count, `nac[i][i]` is the zero block and `nac[i][j] = - nac[j][i]`. -/
theorem ssr_nac_antisymm (c : SSRConf) (log : Log) (mol : Molecule) (bo : List Nat)
    (m₂ : Molecule) (h : extract_BO c "Yes" log mol bo false = .ok m₂) :
    ∀ i j, i < m₂.nst → j < m₂.nst →
      nacGet m₂ i i = some (zeroBlock m₂.nat) ∧
      ∃ v, nacGet m₂ i j = some v ∧ nacGet m₂ j i = some (negBlock v) := by
  obtain ⟨m₁, mf, h₁, h₂, h₃⟩ := extract_BO_parts _ _ _ _ _ _ _ h
  obtain ⟨kf, hfold⟩ := extractNacs_yes _ _ _ h₃
  obtain ⟨hnatp, hnstp, _⟩ := nacFold_dims _ _ _ _ _ hfold
  have hnat : m₂.nat = mf.nat := hnatp
  have hnst : m₂.nst = mf.nst := hnstp
  obtain ⟨hdiag, hlow⟩ := nacFold_final log mf.nat mf.nst mf m₂ kf hfold
  intro i j hi hj
  rw [hnst] at hi hj
  constructor
  · rw [hnat]
    exact hdiag i hi
  · rcases Nat.lt_trichotomy i j with hij | hij | hij
    · exact hlow j i hij hj
    · subst hij
      refine ⟨zeroBlock mf.nat, hdiag i hi, ?_⟩
      rw [negBlock_zeroBlock]
      exact hdiag i hi
    · obtain ⟨v, hv₁, hv₂⟩ := hlow i j hij hi
      refine ⟨negBlock v, hv₂, ?_⟩
      rw [negBlock_negBlock]
      exact hv₁

/-- Witness: the NAC antisymmetry theorem applied to a concrete two-state
extraction. -/
theorem ssr_nac_antisymm_wit :
    extract_BO confW "Yes" logW2 molW2 [0] false = .ok mW2 ∧
    (nacGet mW2 0 0 = some (zeroBlock mW2.nat) ∧
      ∃ v, nacGet mW2 0 1 = some v ∧ nacGet mW2 1 0 = some (negBlock v)) :=
  ⟨rfl, ssr_nac_antisymm confW logW2 molW2 [0] mW2 rfl 0 1 (by decide) (by decide)⟩

/-- C9: with coupling disabled (`self.nac == "No"`) and `calc_force_only`
false, `extract_BO` first zeroes every state's force and then writes only the
target state `bo_list[0]`, storing the negation of the first gradient block
matched in the log; every other state ends the call with an all-zero force. -/
theorem ssr_force_target_only (c : SSRConf) (log : Log) (mol : Molecule)
    (bo : List Nat) (t : Nat) (m₂ : Molecule)
    (h : extract_BO c "No" log mol bo false = .ok m₂) (hbo : bo[0]? = some t) :
    ∃ g rest, log.saForces (t + 1) = g :: rest ∧
      (∀ s, s < m₂.states.length → s ≠ t →
        (m₂.states[s]?).map BOState.force = some (zeroBlock mol.nat)) ∧
      (m₂.states[t]?).map BOState.force = some (negBlock g) := by
  obtain ⟨m₁, mf, h₁, h₂, h₃⟩ := extract_BO_parts _ _ _ _ _ _ _ h
  have hskip := extractNacs_skip "No" log mf false (by rfl)
  rw [hskip] at h₃
  injection h₃ with he
  subst he
  obtain ⟨g, rest, hsa, hnat, hnst, hnac, hlen, hothers, s0, hsrc, hset⟩ :=
    extractForces_no_spec "No" log m₁ bo t mf (by rfl) hbo h₂
  have hobs := extractEnergies_obs _ _ _ _ _ h₁
  have hnat1 : m₁.nat = mol.nat := molObs_nat hobs
  refine ⟨g, rest, hsa, ?_, ?_⟩
  · intro s hs hst
    rw [hothers s hst]
    have hslt : s < m₁.states.length := by rw [← hlen]; exact hs
    rw [List.getElem?_eq_getElem hslt]
    simp only [Option.map_some']
    rw [hnat1]
  · rw [hset]
    rfl

/-- Witness: the force-targeting theorem at a concrete single-state call. -/
theorem ssr_force_target_only_wit :
    extract_BO confW "No" logW1 molW1 [0] false = .ok mW1 ∧
    ∃ g rest, logW1.saForces (0 + 1) = g :: rest ∧
      (∀ s, s < mW1.states.length → s ≠ 0 →
        (mW1.states[s]?).map BOState.force = some (zeroBlock molW1.nat)) ∧
      (mW1.states[0]?).map BOState.force = some (negBlock g) :=
  ⟨rfl, ssr_force_target_only confW logW1 molW1 [0] 0 mW1 rfl rfl⟩

theorem forceStepSSR_dims (log : Log) (m : Molecule) (i : Nat) (m₂ : Molecule)
    (h : forceStepSSR log m i = .ok m₂) : m₂.nst = m.nst ∧ m₂.nat = m.nat := by
  unfold forceStepSSR at h
  cases h1 : (log.ssrForces (i + 1))[0]? with
  | none => simp only [h1] at h; exact Except.noConfusion h
  | some f =>
    simp only [h1] at h
    obtain ⟨hnat, hnst, _⟩ := setStateForce_ok _ _ _ _ h
    exact ⟨hnst, hnat⟩

theorem extractForces_dims (nacFlag : String) (log : Log) (mol0 : Molecule)
    (bo : List Nat) (cfo : Bool) (mf : Molecule)
    (h : extractForces nacFlag log mol0 bo cfo = .ok mf) :
    mf.nst = mol0.nst ∧ mf.nat = mol0.nat := by
  have hreset : (forceReset mol0 cfo).nst = mol0.nst ∧ (forceReset mol0 cfo).nat = mol0.nat := by
    unfold forceReset
    cases cfo <;> exact ⟨rfl, rfl⟩
  unfold extractForces at h
  split at h
  · have := except_fold_obs _ (fun m => (m.nst, m.nat)) _ _ _
      (fun t a t₂ _ hst => by
        obtain ⟨h1, h2⟩ := forceStepSSR_dims log t a t₂ hst
        simp [h1, h2]) h
    have h1 : mf.nst = (forceReset mol0 cfo).nst := congrArg Prod.fst this
    have h2 : mf.nat = (forceReset mol0 cfo).nat := congrArg Prod.snd this
    exact ⟨h1.trans hreset.1, h2.trans hreset.2⟩
  · split at h
    · exact Except.noConfusion h
    · split at h
      · exact Except.noConfusion h
      · obtain ⟨hnat, hnst, _⟩ := setStateForce_ok _ _ _ _ h
        exact ⟨hnst.trans hreset.1, hnat.trans hreset.2⟩

/-- C5: on a log in which an expected pattern is absent (the per-state energy
line of the active variant, a needed per-state force block, or one of the
required coupling blocks), `extract_BO` raises an exception rather than
completing. -/
theorem ssr_extract_missing_raises (c : SSRConf) (nacFlag : String) (log : Log)
    (mol : Molecule) (bo : List Nat)
    (hnst : 0 < mol.nst)
    (hmiss :
      (mol.nst = 1 ∧ log.spinEnergies = []) ∨
      (mol.nst ≠ 1 ∧ c.use_ssr_state = 1 ∧ log.ssrEnergies = []) ∨
      (mol.nst ≠ 1 ∧ c.use_ssr_state ≠ 1 ∧ log.spinEnergies = []) ∨
      (nacFlag = "Yes" ∧ ∃ ist, ist < mol.nst ∧ log.ssrForces (ist + 1) = []) ∨
      (nacFlag ≠ "Yes" ∧ ∀ t, bo[0]? = some t → log.saForces (t + 1) = []) ∨
      (nacFlag = "Yes" ∧ log.nacBlocks.length < nacPairCount mol.nst)) :
    ∃ e, extract_BO c nacFlag log mol bo false = .error e := by
  cases hres : extract_BO c nacFlag log mol bo false with
  | error e => exact ⟨e, rfl⟩
  | ok m₂ =>
    exfalso
    obtain ⟨m₁, mf, h₁, h₂, h₃⟩ := extract_BO_parts _ _ _ _ _ _ _ hres
    have hobs := extractEnergies_obs _ _ _ _ _ h₁
    have hnst1 : m₁.nst = mol.nst := molObs_nst hobs
    rcases hmiss with ⟨h1, h2⟩ | ⟨h1, h2, h3⟩ | ⟨h1, h2, h3⟩ | ⟨h1, h2⟩ | ⟨h1, h2⟩ | ⟨h1, h2⟩
    · unfold extractEnergies at h₁
      rw [if_neg (by simp)] at h₁
      rw [h1] at h₁
      rw [if_pos (show ((1 : Nat) == 1) = true from rfl)] at h₁
      rw [show List.range 1 = [0] from rfl, List.foldlM_cons] at h₁
      obtain ⟨mA, hstep, _⟩ := except_bind_ok _ _ _ h₁
      unfold energyStepSingle at hstep
      rw [h2] at hstep
      simp only [List.getElem?_nil] at hstep
      exact Except.noConfusion hstep
    · unfold extractEnergies at h₁
      rw [if_neg (by simp)] at h₁
      rw [if_neg (by simp [h1])] at h₁
      rw [if_pos (by simp [h2])] at h₁
      obtain ⟨k, hk⟩ : ∃ k, mol.nst = k + 1 := ⟨mol.nst - 1, by omega⟩
      rw [hk, List.range_succ_eq_map, List.foldlM_cons] at h₁
      obtain ⟨mA, hstep, _⟩ := except_bind_ok _ _ _ h₁
      unfold energyStepSSR at hstep
      rw [h3] at hstep
      simp only [List.getElem?_nil] at hstep
      exact Except.noConfusion hstep
    · unfold extractEnergies at h₁
      rw [if_neg (by simp)] at h₁
      rw [if_neg (by simp [h1])] at h₁
      rw [if_neg (by simp [h2])] at h₁
      rw [h3] at h₁
      simp only [List.getElem?_nil] at h₁
      exact Except.noConfusion h₁
    · subst h1
      unfold extractForces at h₂
      rw [if_pos (show (("Yes" : String) == "Yes") = true from rfl)] at h₂
      obtain ⟨ist, hist, hempty⟩ := h2
      have hmem : ist ∈ List.range (forceReset m₁ false).nst := by
        rw [List.mem_range]
        show ist < (forceReset m₁ false).nst
        have hfr : (forceReset m₁ false).nst = m₁.nst := rfl
        rw [hfr, hnst1]
        exact hist
      obtain ⟨t1, t2, hstep⟩ := except_fold_mem_ok _ _ _ _ h₂ ist hmem
      unfold forceStepSSR at hstep
      rw [hempty] at hstep
      simp only [List.getElem?_nil] at hstep
      exact Except.noConfusion hstep
    · unfold extractForces at h₂
      rw [if_neg (by simp [h1])] at h₂
      cases hbo : bo[0]? with
      | none =>
        simp only [hbo] at h₂
        exact Except.noConfusion h₂
      | some t =>
        simp only [hbo] at h₂
        rw [h2 t hbo] at h₂
        simp only [List.getElem?_nil] at h₂
        exact Except.noConfusion h₂
    · subst h1
      obtain ⟨kf, hfold⟩ := extractNacs_yes _ _ _ h₃
      have hcnt := nacFold_count log mf.nat (pairList mf.nst) (mf, 0) (m₂, kf) hfold
      have hfnst : mf.nst = mol.nst := by
        rw [(extractForces_dims _ _ _ _ _ _ h₂).1, hnst1]
      unfold nacPairCount at h2
      rw [← hfnst] at h2
      rcases hcnt with h0 | hle
      · rw [h0] at h2
        omega
      · omega

/-- Witness: the missing-pattern theorem at a concrete single-state call on an
empty log. -/
theorem ssr_extract_missing_raises_wit :
    0 < molW1.nst ∧ molW1.nst = 1 ∧ logEmpty.spinEnergies = [] ∧
    ∃ e, extract_BO confW "No" logEmpty molW1 [0] false = .error e :=
  ⟨by decide, rfl, rfl,
    ssr_extract_missing_raises confW "No" logEmpty molW1 [0] (by decide)
      (Or.inl ⟨rfl, rfl⟩)⟩

theorem lcScreeningName_error (m : String) (e : PyError)
    (h : lcScreeningName m = .error e) : ∃ msg, e = .valueError msg := by
  unfold lcScreeningName at h
  by_cases h1 : m = "MM"
  · rw [if_pos h1] at h; exact Except.noConfusion h
  · rw [if_neg h1] at h
    by_cases h2 : m = "NB"
    · rw [if_pos h2] at h; exact Except.noConfusion h
    · rw [if_neg h2] at h
      injection h with h
      exact ⟨_, h.symm⟩

theorem lcScreeningName_ok (m s : String) (h : lcScreeningName m = .ok s) :
    m = "MM" ∨ m = "NB" := by
  unfold lcScreeningName at h
  by_cases h1 : m = "MM"
  · exact Or.inl h1
  · rw [if_neg h1] at h
    by_cases h2 : m = "NB"
    · exact Or.inr h2
    · rw [if_neg h2] at h
      exact Except.noConfusion h

theorem inputHamBlock_error (c : SSRConf) (p : DFTBPar) (mol : Molecule) (e : PyError)
    (h : inputHamBlock c p mol = .error e) : ∃ msg, e = .valueError msg := by
  unfold inputHamBlock at h
  split at h
  · cases hlc : lcScreeningName c.lc_method with
    | error e2 =>
      rw [hlc] at h
      have h2 : Except.error e2 = Except.error e := h
      injection h2 with h2
      subst h2
      exact lcScreeningName_error _ _ hlc
    | ok s =>
      rw [hlc] at h
      exact Except.noConfusion h
  · exact Except.noConfusion h

theorem inputHamBlock_ok_lc (c : SSRConf) (p : DFTBPar) (mol : Molecule) (s : String)
    (h : inputHamBlock c p mol = .ok s) (hscc : c.scc = true) (hlc : c.lcdftb = true) :
    c.lc_method = "MM" ∨ c.lc_method = "NB" := by
  unfold inputHamBlock at h
  rw [if_pos ⟨hscc, hlc⟩] at h
  cases hn : lcScreeningName c.lc_method with
  | error e => rw [hn] at h; exact Except.noConfusion h
  | ok sc => exact lcScreeningName_ok _ _ hn

/-- Inversion of a successful `get_input`: the checks that must have passed and
the exact shape of the rendered document. -/
theorem get_input_ok (c : SSRConf) (p : DFTBPar) (mol : Molecule) (bo : List Nat)
    (doc nacStr : String) (h : get_input c p mol bo = .ok (doc, nacStr)) :
    ∃ ham t, inputHamBlock c p mol = .ok ham ∧ bo[0]? = some t ∧
      c.ssr22 = true ∧ ¬ c.guess = 2 ∧ c.version = rat19_1 ∧
      nacStr = nacOption mol.nst c.use_ssr_state c.calc_coupling ∧
      doc = inputGeom ++ ham ++ inputAnalysisBlock ++ inputOptionsBlock
        ++ inputReksBlock (energyOptions mol.nst).1 (energyOptions mol.nst).2
            c.use_ssr_state (t + 1) c.state_l c.guess c.shift c.grad_level
            c.grad_tol "No" nacStr c.mem_level
        ++ inputParserBlock 7 := by
  unfold get_input at h
  obtain ⟨ham, hham, h⟩ := except_bind_ok _ _ _ h
  by_cases hssr : c.ssr22
  · rw [if_neg (by simp [hssr])] at h
    by_cases hg : c.guess = 2
    · rw [if_pos hg] at h
      exact Except.noConfusion h
    · rw [if_neg hg] at h
      cases hbo : bo[0]? with
      | none => simp only [hbo] at h; exact Except.noConfusion h
      | some t =>
        simp only [hbo] at h
        by_cases hv : c.version = rat19_1
        · rw [if_pos hv] at h
          injection h with h
          injection h with hdoc hnacS
          refine ⟨ham, t, hham, rfl, hssr, hg, hv, hnacS.symm, ?_⟩
          rw [← hdoc, hnacS]
        · rw [if_neg hv] at h
          exact Except.noConfusion h
  · rw [if_pos (by simp [hssr])] at h
    exact Except.noConfusion h

/-- C1: the `(EnergyFunctional, EnergyLevel)` pair that `get_input` writes
into the REKS block of `dftb_in.hsd` is the pure function `energyOptions` of
`molecule.nst`: one state gives `(1, 1)`, two give `(2, 1)`, three or more
give `(2, 2)`. -/
theorem ssr_energy_functional_table (c : SSRConf) (p : DFTBPar) (mol : Molecule)
    (bo : List Nat) (doc nacStr : String)
    (h : get_input c p mol bo = .ok (doc, nacStr)) :
    (∃ pre post, doc = pre
      ++ reksEnergyLines (energyOptions mol.nst).1 (energyOptions mol.nst).2 ++ post) ∧
    (mol.nst = 1 → energyOptions mol.nst = (1, 1)) ∧
    (mol.nst = 2 → energyOptions mol.nst = (2, 1)) ∧
    (3 ≤ mol.nst → energyOptions mol.nst = (2, 2)) := by
  obtain ⟨ham, t, hham, hbo, hssr, hg, hv, hnac, hdoc⟩ := get_input_ok _ _ _ _ _ _ h
  refine ⟨⟨inputGeom ++ ham ++ inputAnalysisBlock ++ inputOptionsBlock ++ reksHead,
    reksMid c.use_ssr_state (t + 1) c.state_l c.guess c.shift c.grad_level c.grad_tol "No"
      ++ reksNacLine nacStr ++ reksTail c.mem_level ++ inputParserBlock 7, ?_⟩, ?_, ?_, ?_⟩
  · rw [hdoc]
    unfold inputReksBlock
    simp [String.append_assoc]
  · intro h1
    simp [energyOptions, h1]
  · intro h2
    simp [energyOptions, h2]
  · intro h3
    have hne1 : mol.nst ≠ 1 := by omega
    have hne2 : mol.nst ≠ 2 := by omega
    simp [energyOptions, hne1, hne2]

set_option maxRecDepth 100000 in
/-- Witness: the energy-functional table theorem at a concrete render. -/
theorem ssr_energy_functional_table_wit :
    get_input confW parsW molW1 [0] = .ok (dW1.1, dW1.2) ∧
    ((∃ pre post, dW1.1 = pre
        ++ reksEnergyLines (energyOptions molW1.nst).1 (energyOptions molW1.nst).2 ++ post) ∧
      (molW1.nst = 1 → energyOptions molW1.nst = (1, 1)) ∧
      (molW1.nst = 2 → energyOptions molW1.nst = (2, 1)) ∧
      (3 ≤ molW1.nst → energyOptions molW1.nst = (2, 2))) :=
  ⟨by decide, ssr_energy_functional_table confW parsW molW1 [0] dW1.1 dW1.2 (by decide)⟩

/-- C7: with configuration, parameter tables, molecule snapshot and `bo_list`
fixed, `get_input` is deterministic: two successful renders yield identical
document bytes and NAC flag. -/
theorem ssr_get_input_deterministic (c : SSRConf) (p : DFTBPar) (mol : Molecule)
    (bo : List Nat) (d₁ d₂ : String × String)
    (h₁ : get_input c p mol bo = .ok d₁) (h₂ : get_input c p mol bo = .ok d₂) :
    d₁ = d₂ :=
  Except.ok.inj (h₁.symm.trans h₂)

set_option maxRecDepth 100000 in
/-- Witness: determinism applied at a concrete render. -/
theorem ssr_get_input_deterministic_wit :
    get_input confW parsW molW1 [0] = .ok dW1 ∧ dW1 = dW1 :=
  ⟨by decide, ssr_get_input_deterministic confW parsW molW1 [0] dW1 dW1 (by decide) (by decide)⟩

/-- C8: `SSR.__init__` mutates the caller-owned molecule: `l_nacme` is set to
`false` exactly when `use_ssr_state = 1` and to `true` otherwise, while every
other molecule field is preserved; construction is therefore not
side-effect-free on the snapshot. -/
theorem ssr_init_mutates_l_nacme (mol : Molecule) (c : SSRConf) :
    ∃ s mol₂, SSR.init mol c = .ok (s, mol₂) ∧
      (mol₂.l_nacme = false ↔ c.use_ssr_state = 1) ∧
      (mol₂.l_nacme = true ↔ ¬ c.use_ssr_state = 1) ∧
      mol₂.nat = mol.nat ∧ mol₂.nst = mol.nst ∧ mol₂.charge = mol.charge ∧
      mol₂.atom_type = mol.atom_type ∧ mol₂.states = mol.states ∧
      mol₂.nac = mol.nac := by
  refine ⟨_, _, rfl, ?_, ?_, ?_, ?_, ?_, ?_, ?_, ?_⟩ <;>
    by_cases hu : c.use_ssr_state = 1 <;> simp [SSR.init, hu]

theorem rat19_1_eq : rat19_1 = 19.1 := by
  norm_num [rat19_1, Rat.mkRat_eq_div]

theorem rat5_2_eq : rat5_2 = 5.2 := by
  norm_num [rat5_2, Rat.mkRat_eq_div]

/-- C6: for a single-state request (`nst = 1`, the lone state targeted by
`bo_list`), coupling is automatically disabled: `get_input` stores
`self.nac = "No"` and emits `NonAdiabaticCoupling = No`, and `extract_BO`
assigns exactly one energy value and exactly one (negated) force block to the
single state while leaving `molecule.nac` unmodified. -/
theorem ssr_single_state_scenario (c : SSRConf) (p : DFTBPar) (mol : Molecule)
    (bo : List Nat) (log : Log) (s0 : BOState)
    (hnst : mol.nst = 1) (hstates : mol.states = [s0]) (hbo : bo[0]? = some 0) :
    (∀ doc nacStr, get_input c p mol bo = .ok (doc, nacStr) →
      nacStr = "No" ∧
      ∃ pre post, doc = pre ++ "NonAdiabaticCoupling = No\n" ++ post) ∧
    (∀ m₂, extract_BO c "No" log mol bo false = .ok m₂ →
      m₂.nac = mol.nac ∧
      ∃ em restE g restF, log.spinEnergies = em :: restE ∧
        log.saForces 1 = g :: restF ∧
        m₂.states = [{ energy := em.headD 0, force := negBlock g }]) := by
  constructor
  · intro doc nacStr h
    obtain ⟨ham, t, hham, hbo2, hssr, hg, hv, hnac, hdoc⟩ := get_input_ok _ _ _ _ _ _ h
    have hnacNo : nacStr = "No" := by
      rw [hnac]
      unfold nacOption
      rw [hnst]
      rfl
    refine ⟨hnacNo, inputGeom ++ ham ++ inputAnalysisBlock ++ inputOptionsBlock
        ++ reksHead ++ reksEnergyLines (energyOptions mol.nst).1 (energyOptions mol.nst).2
        ++ reksMid c.use_ssr_state (t + 1) c.state_l c.guess c.shift c.grad_level
            c.grad_tol "No",
      reksTail c.mem_level ++ inputParserBlock 7, ?_⟩
    rw [hdoc, hnacNo,
      show ("NonAdiabaticCoupling = No\n" : String) = reksNacLine "No" from rfl]
    unfold inputReksBlock
    simp [String.append_assoc]
  · intro m₂ h
    obtain ⟨m₁, mf, h₁, h₂, h₃⟩ := extract_BO_parts _ _ _ _ _ _ _ h
    have hskip := extractNacs_skip "No" log mf false (by rfl)
    rw [hskip] at h₃
    injection h₃ with he
    subst he
    obtain ⟨em, restE, hsp, hm₁⟩ := extractEnergies_single_spec c log mol s0 m₁ hnst hstates h₁
    obtain ⟨g, restF, hsa, hnat, hnst2, hnac2, hlen, hothers, s1, hsrc, hset⟩ :=
      extractForces_no_spec "No" log m₁ bo 0 mf (by rfl) hbo h₂
    refine ⟨?_, em, restE, g, restF, hsp, hsa, ?_⟩
    · rw [hnac2, hm₁]
    · have hlen2 : mf.states.length = 1 := by
        rw [hlen, hm₁]
        rfl
      rw [hm₁] at hsrc
      simp only [List.getElem?_cons_zero] at hsrc
      injection hsrc with hsrc
      have hst : mf.states[0]? = some { energy := em.headD 0, force := negBlock g } := by
        rw [hset, ← hsrc]
      exact list_singleton_of _ _ hlen2 hst

set_option maxRecDepth 100000 in
/-- Witness: the single-state scenario at a concrete render and extraction. -/
theorem ssr_single_state_scenario_wit :
    molW1.nst = 1 ∧ molW1.states = [{ energy := 5, force := [(7, 7, 7)] }] ∧
    (get_input confW parsW molW1 [0] = .ok (dW1.1, dW1.2) ∧
      (dW1.2 = "No" ∧ ∃ pre post, dW1.1 = pre ++ "NonAdiabaticCoupling = No\n" ++ post)) ∧
    (extract_BO confW "No" logW1 molW1 [0] false = .ok mW1 ∧
      (mW1.nac = molW1.nac ∧
        ∃ em restE g restF, logW1.spinEnergies = em :: restE ∧
          logW1.saForces 1 = g :: restF ∧
          mW1.states = [{ energy := em.headD 0, force := negBlock g }])) :=
  ⟨rfl, rfl,
    ⟨by decide,
      (ssr_single_state_scenario confW parsW molW1 [0] logW1
        { energy := 5, force := [(7, 7, 7)] } rfl rfl rfl).1 dW1.1 dW1.2 (by decide)⟩,
    ⟨rfl,
      (ssr_single_state_scenario confW parsW molW1 [0] logW1
        { energy := 5, force := [(7, 7, 7)] } rfl rfl rfl).2 mW1 rfl⟩⟩

theorem except_ok_bind {α β : Type} (a : α) (f : α → Except PyError β) :
    (Except.ok a >>= f) = f a := rfl

set_option maxRecDepth 100000 in
/-- C3 counterexample: the SSR adapter does not validate its configuration at
construction time.  With the unimplemented active-space option
(`ssr22 = False`), `SSR.__init__` returns normally and the `ValueError` is
raised only when a calculation step reaches input rendering (`get_input`). -/
theorem ssr_validation_deferred_cex :
    SSR.init molW1 confBad = .ok initBad ∧
    get_input confBad parsW initBad.2 [0]
      = .error (.valueError "Other active spaces Not Implemented") :=
  ⟨rfl, by decide⟩

/-- C3 amended: invalid configuration combinations fail eagerly, but not all
at construction time: `SSR.__init__` never raises, and the SSR combinations
(non-default active space, external-guess reuse, unsupported LC screening,
unsupported version) raise `ValueError` during input rendering (`get_input`),
before the subprocess run or extraction; `Turbomole.__init__` raises
`ValueError` (wrong string version) or `TypeError` (non-string version) at
construction; `QChem.__init__` raises at construction, though a `NameError`
(from its unimported `call_name` helper) instead of the intended
`ValueError`. -/
theorem adapter_validation_eager :
    (∀ (mol : Molecule) (c : SSRConf), ∃ r, SSR.init mol c = .ok r) ∧
    (∀ (c : SSRConf) (p : DFTBPar) (mol : Molecule) (bo : List Nat) (t : Nat),
      bo[0]? = some t →
      (c.ssr22 = false ∨ c.guess = 2 ∨
        (c.scc = true ∧ c.lcdftb = true ∧ ¬ c.lc_method = "MM" ∧ ¬ c.lc_method = "NB") ∨
        ¬ c.version = 19.1) →
      ∃ msg, get_input c p mol bo = .error (.valueError msg)) ∧
    (∀ (a : TurboArgs) (env : Env) (s : String), a.version = PyVal.pstr s →
      ¬ s = "6.4" →
      ∃ msg, (Turbomole.init a env).2 = .error (.valueError msg)) ∧
    (∀ (a : TurboArgs) (env : Env) (q : ℚ), a.version = PyVal.pnum q →
      ∃ msg, (Turbomole.init a env).2 = .error (.typeError msg)) ∧
    (∀ a : QChemArgs, ¬ a.version = 5.2 → ∃ e, QChem.init a = .error e) := by
  refine ⟨fun mol c => ⟨_, rfl⟩, ?_, ?_, ?_, ?_⟩
  · intro c p mol bo t hbo hdisj
    cases hham : inputHamBlock c p mol with
    | error e =>
      obtain ⟨msg, hmsg⟩ := inputHamBlock_error _ _ _ _ hham
      refine ⟨msg, ?_⟩
      unfold get_input
      rw [hham, hmsg]
      rfl
    | ok ham =>
      unfold get_input
      rw [hham, except_ok_bind]
      by_cases hssr : c.ssr22 = true
      · rw [if_neg (fun hn => hn hssr)]
        by_cases hg : c.guess = 2
        · rw [if_pos hg]
          exact ⟨_, rfl⟩
        · rw [if_neg hg]
          simp only [hbo]
          by_cases hv : c.version = rat19_1
          · rw [if_pos hv]
            exfalso
            rcases hdisj with h1 | h1 | h1 | h1
            · rw [h1] at hssr
              exact Bool.noConfusion hssr
            · exact hg h1
            · obtain ⟨hscc, hlc, hmm, hnb⟩ := h1
              rcases inputHamBlock_ok_lc c p mol ham hham hscc hlc with hcase | hcase
              · exact hmm hcase
              · exact hnb hcase
            · exact h1 (by rw [hv, rat19_1_eq])
          · rw [if_neg hv]
            exact ⟨_, rfl⟩
      · rw [if_pos hssr]
        exact ⟨_, rfl⟩
  · intro a env s hv hne
    simp only [Turbomole.init, hv]
    rw [if_pos hne]
    exact ⟨_, rfl⟩
  · intro a env q hv
    simp only [Turbomole.init, hv]
    exact ⟨_, rfl⟩
  · intro a hv
    unfold QChem.init
    rw [if_pos (by rw [rat5_2_eq]; exact hv)]
    exact ⟨_, rfl⟩

set_option maxRecDepth 100000 in
/-- Witness: the eager-validation theorem applied at concrete invalid
configurations for each adapter. -/
theorem adapter_validation_eager_wit :
    (∃ r, SSR.init molW1 confBad = .ok r) ∧
    (∃ msg, get_input confBad parsW molW1 [0] = .error (.valueError msg)) ∧
    (∃ msg, (Turbomole.init turboBadS []).2 = .error (.valueError msg)) ∧
    (∃ msg, (Turbomole.init turboBadT []).2 = .error (.typeError msg)) ∧
    (∃ e, QChem.init qchemBad = .error e) :=
  ⟨adapter_validation_eager.1 molW1 confBad,
    adapter_validation_eager.2.1 confBad parsW molW1 [0] 0 rfl (Or.inl rfl),
    adapter_validation_eager.2.2.1 turboBadS [] "6.3" rfl (by decide),
    adapter_validation_eager.2.2.2.1 turboBadT [] 6 rfl,
    adapter_validation_eager.2.2.2.2 qchemBad (by norm_num [qchemBad])⟩

/-- C4 counterexample: a crashed subprocess is not detected.  With exit
status 127 (command not found), `run_QM` completes normally: `os.system`'s
return value is discarded, so no exception or error reaches the caller from
`run_QM` itself. -/
theorem run_qm_ignores_exit_cex :
    SSR.run_QM confW [] "/base" 0 [0] 127 false
      = .ok { env := [("OMP_NUM_THREADS", "1")],
              commands := ["./dftb+ > log"], copies := [] } := by decide

/-- C4 amended: `run_QM` ignores the subprocess exit status entirely: for any
status it returns normally, issues the launch command exactly once (so no
retry happens inside the adapter), exports `OMP_NUM_THREADS`, and its result
is independent of the status; a failed run surfaces only later, when
`extract_BO` fails to match the expected patterns in the log. -/
theorem run_qm_no_raise_no_retry (c : SSRConf) (env : Env) (base : String)
    (istep : Nat) (bo : List Nat) (ec : Int) (qd : Bool) (t : Nat)
    (hbo : bo[0]? = some t) :
    ∃ r, SSR.run_QM c env base istep bo ec qd = .ok r ∧
      r.commands = [joinPath c.qm_path "dftb+" ++ " > log"] ∧
      getEnv r.env "OMP_NUM_THREADS" = some (toString c.nthreads) ∧
      SSR.run_QM c env base istep bo ec qd = SSR.run_QM c env base istep bo 0 qd := by
  cases qd with
  | false => exact ⟨_, rfl, rfl, rfl, rfl⟩
  | true =>
    have hrun : ∀ ec2 : Int, SSR.run_QM c env base istep bo ec2 true
        = .ok { env := setEnv env "OMP_NUM_THREADS" (toString c.nthreads),
                commands := [joinPath c.qm_path "dftb+" ++ " > log"],
                copies := [("log", joinPath (joinPath base "QMlog")
                  ("log." ++ toString (istep + 1) ++ "." ++ toString t))] } := by
      intro ec2
      simp [SSR.run_QM, hbo]
    exact ⟨_, hrun ec, rfl, rfl, (hrun ec).trans (hrun 0).symm⟩

/-- Witness: the run theorem at a concrete crashed invocation with archiving
enabled. -/
theorem run_qm_no_raise_no_retry_wit :
    ∃ r, SSR.run_QM confW [] "/base" 3 [1] (-9) true = .ok r ∧
      r.commands = [joinPath confW.qm_path "dftb+" ++ " > log"] ∧
      getEnv r.env "OMP_NUM_THREADS" = some (toString confW.nthreads) ∧
      SSR.run_QM confW [] "/base" 3 [1] (-9) true
        = SSR.run_QM confW [] "/base" 3 [1] 0 true :=
  run_qm_no_raise_no_retry confW [] "/base" 3 [1] (-9) true 1 rfl

theorem getEnv_set_self (env : Env) (k v : String) :
    getEnv (setEnv env k v) k = some v := by
  simp [getEnv, setEnv, List.find?]

theorem getEnv_set_other (env : Env) (k k2 v : String) (h : ¬ k = k2) :
    getEnv (setEnv env k v) k2 = getEnv env k2 := by
  simp only [getEnv, setEnv, List.find?]
  have hb : (k == k2) = false := by
    simp [h]
  rw [hb]

/-- The environment component returned by `Turbomole.__init__` (in every case,
including the raising ones): `TURBODIR` always, plus the SMP pair when
`nthreads` is not `1`. -/
theorem turbo_init_env (a : TurboArgs) (env : Env) :
    (Turbomole.init a env).1 =
      if (a.nthreads == 1) = true then setEnv env "TURBODIR" a.qm_path
      else setEnv (setEnv (setEnv env "TURBODIR" a.qm_path) "PARA_ARCH" "SMP")
        "PARNODES" (toString a.nthreads) := by
  cases hv : a.version with
  | pstr s =>
    by_cases hs : ¬ s = "6.4"
    · simp [Turbomole.init, hv, hs, apply_ite]
      split <;> rename_i hcond <;> intro hc <;>
        first | exact absurd hcond hc | exact absurd hc hcond
    · simp [Turbomole.init, hv, hs, apply_ite]
      split <;> rename_i hcond <;> intro hc <;>
        first | exact absurd hcond hc | exact absurd hc hcond
  | pnum q =>
    simp [Turbomole.init, hv, apply_ite]
    split <;> rename_i hcond <;> intro hc <;>
      first | exact absurd hcond hc | exact absurd hc hcond

/-- C10: the environment mutations are persistent, not scoped to one call:
`Turbomole.__init__` always exports `TURBODIR` (even on its raising paths)
and, when `nthreads > 1`, also `PARA_ARCH = SMP` and `PARNODES`;
`SSR.run_QM` exports `OMP_NUM_THREADS`; the environments handed back to the
caller still contain all of these (nothing restores them). -/
theorem env_mutation_persists :
    (∀ (a : TurboArgs) (env : Env),
      getEnv (Turbomole.init a env).1 "TURBODIR" = some a.qm_path) ∧
    (∀ (a : TurboArgs) (env : Env), 1 < a.nthreads →
      getEnv (Turbomole.init a env).1 "PARA_ARCH" = some "SMP" ∧
      getEnv (Turbomole.init a env).1 "PARNODES" = some (toString a.nthreads)) ∧
    (∀ (c : SSRConf) (env : Env) (base : String) (istep : Nat) (bo : List Nat)
      (ec : Int) (qd : Bool) (r : RunRecord),
      SSR.run_QM c env base istep bo ec qd = .ok r →
      getEnv r.env "OMP_NUM_THREADS" = some (toString c.nthreads)) := by
  refine ⟨?_, ?_, ?_⟩
  · intro a env
    rw [turbo_init_env]
    by_cases hn : (a.nthreads == 1) = true
    · rw [if_pos hn]
      exact getEnv_set_self _ _ _
    · rw [if_neg hn]
      rw [getEnv_set_other _ _ _ _ (by decide), getEnv_set_other _ _ _ _ (by decide)]
      exact getEnv_set_self _ _ _
  · intro a env hlt
    have hn : (a.nthreads == 1) = false := by
      have : ¬ a.nthreads = 1 := by omega
      simp [this]
    rw [turbo_init_env, if_neg (by simp [hn])]
    constructor
    · rw [getEnv_set_other _ _ _ _ (by decide)]
      exact getEnv_set_self _ _ _
    · exact getEnv_set_self _ _ _
  · intro c env base istep bo ec qd r h
    cases qd with
    | false =>
      have h2 : Except.ok
          { env := setEnv env "OMP_NUM_THREADS" (toString c.nthreads),
            commands := [joinPath c.qm_path "dftb+" ++ " > log"],
            copies := ([] : List (String × String)) } = Except.ok r := h
      injection h2 with h2
      rw [← h2]
      exact getEnv_set_self _ _ _
    | true =>
      cases hbo : bo[0]? with
      | none =>
        have h2 : (Except.error PyError.indexError : Except PyError RunRecord)
            = .ok r := by
          rw [← h]
          simp [SSR.run_QM, hbo]
        exact Except.noConfusion h2
      | some t =>
        have hrun : SSR.run_QM c env base istep bo ec true
            = .ok { env := setEnv env "OMP_NUM_THREADS" (toString c.nthreads),
                    commands := [joinPath c.qm_path "dftb+" ++ " > log"],
                    copies := [("log", joinPath (joinPath base "QMlog")
                      ("log." ++ toString (istep + 1) ++ "." ++ toString t))] } := by
          simp [SSR.run_QM, hbo]
        rw [hrun] at h
        injection h with h
        rw [← h]
        exact getEnv_set_self _ _ _

/-- Witness: environment persistence at a concrete Turbomole construction with
four threads and a concrete `run_QM` call. -/
theorem env_mutation_persists_wit :
    getEnv (Turbomole.init turboW []).1 "TURBODIR" = some turboW.qm_path ∧
    (getEnv (Turbomole.init turboW []).1 "PARA_ARCH" = some "SMP" ∧
      getEnv (Turbomole.init turboW []).1 "PARNODES" = some (toString turboW.nthreads)) ∧
    getEnv rW.env "OMP_NUM_THREADS" = some (toString confW.nthreads) :=
  ⟨env_mutation_persists.1 turboW [],
    env_mutation_persists.2.1 turboW [] (by decide),
    env_mutation_persists.2.2 confW [] "/base" 0 [0] 0 false rW (by decide)⟩
